import Mathlib

/-!
Verification of the multimedia export core (`src/file_export.c`) of the
atari800 emulator: the streaming AVI writer, the WAV writer and the PCX
still-image encoder.  The C code is shallowly embedded: machine integers
become `Nat` with explicit truncation (`% 2^32`) where the C type is the
32-bit `ULONG`, byte sinks become `List Nat` (one `Nat` per byte), C `int`
sentinels become `Int`, and the external collaborators (video codec hooks,
screen buffer, sound configuration) become explicit parameters.  The
configuration modelled is the full build (`SOUND` and `AVI_VIDEO_RECORDING`
defined), which is the configuration all of the analysed behaviour lives in.
-/

namespace FileExport

/-- `MAX_RECORDING_SIZE` from file_export.c line 56. -/
def MAX_RECORDING_SIZE : Nat := 0xfff00000

/-- Truncation to the 32-bit unsigned range, modelling C `ULONG` arithmetic. -/
def U32 (x : Nat) : Nat := x % 4294967296

/-- `VIDEO_BITMASK` from file_export.c line 128. -/
def VIDEO_BITMASK : Nat := 0x0003ffff

/-- `AUDIO_BITSHIFT` from file_export.c line 129. -/
def AUDIO_BITSHIFT : Nat := 0x00040000

/-- `AUDIO_BITMASK` from file_export.c line 130. -/
def AUDIO_BITMASK : Nat := 0x7ffc0000

/-- `KEYFRAME_BITMASK` from file_export.c line 131. -/
def KEYFRAME_BITMASK : Nat := 0x80000000

/-- The four bytes emitted by `fputl` (file_export.c lines 388-394):
a 32-bit value in little-endian byte order. -/
def fputlBytes (x : Nat) : List Nat :=
  [x &&& 0xff, (x >>> 8) &&& 0xff, (x >>> 16) &&& 0xff, (x >>> 24) &&& 0xff]

/-- The two bytes emitted by `fputw` (file_export.c lines 381-385). -/
def fputwBytes (x : Nat) : List Nat :=
  [x &&& 0xff, (x >>> 8) &&& 0xff]

theorem fputlBytes_length (x : Nat) : (fputlBytes x).length = 4 := rfl

theorem fputwBytes_length (x : Nat) : (fputwBytes x).length = 2 := rfl

/-! ### Packed per-frame index entries

`AVI_WriteFrame` packs each recorded frame's video size, audio size and
keyframe flag into one 32-bit word (file_export.c lines 1145-1152); the
index writer decodes the word again (lines 1305-1321). -/

/-- The packed index word built by `AVI_WriteFrame` lines 1145-1152:
`current_screen_size + AUDIO_BITSHIFT * audio_size`, then the keyframe
bit is or-ed in when the pending frame is a keyframe.  The sum is stored
into a C `ULONG`, hence the truncation. -/
def packFrameIndex (video_size audio_size : Nat) (keyframe : Bool) : Nat :=
  let e := U32 (video_size + AUDIO_BITSHIFT * audio_size)
  if keyframe then e ||| KEYFRAME_BITMASK else e

/-- Video size decoded from a packed entry, `index & VIDEO_BITMASK`
(file_export.c line 1312). -/
def indexVideoSize (e : Nat) : Nat := e &&& VIDEO_BITMASK

/-- Audio size decoded from a packed entry,
`(index & AUDIO_BITMASK) / AUDIO_BITSHIFT` (file_export.c line 1320). -/
def indexAudioSize (e : Nat) : Nat := (e &&& AUDIO_BITMASK) / AUDIO_BITSHIFT

/-- The idx1 flag word for a video entry,
`index & KEYFRAME_BITMASK ? 0x10 : 0` (file_export.c line 1307). -/
def indexKeyframeFlag (e : Nat) : Nat :=
  if e &&& KEYFRAME_BITMASK ≠ 0 then 0x10 else 0

/-! Bit-level helper lemmas for the packed layout. -/

theorem land_video_mask (v a k : Nat) (hv : v < 262144)
    (hk : k = 0 ∨ k = 2147483648) :
    (v + 262144 * a + k) &&& 262143 = v := by
  have h : (262143 : Nat) = 2 ^ 18 - 1 := by norm_num
  rw [h, Nat.and_pow_two_sub_one_eq_mod]
  have h2 : (2 : Nat) ^ 18 = 262144 := by norm_num
  rw [h2]
  omega

set_option maxHeartbeats 1000000 in
theorem land_audio_mask (v a k : Nat) (hv : v < 262144) (ha : a < 8192)
    (hk : k = 0 ∨ k = 2147483648) :
    (v + 262144 * a + k) &&& 2147221504 = 262144 * a := by
  apply Nat.eq_of_testBit_eq
  intro i
  rcases Nat.lt_or_ge i 32 with h | h
  · rw [Nat.testBit_and]
    interval_cases i <;>
      · simp only [Nat.testBit_to_div_mod, ← Bool.decide_and, decide_eq_decide]
        norm_num
        omega
  · have hb : (2 : Nat) ^ 32 ≤ 2 ^ i := Nat.pow_le_pow_right (by norm_num) h
    have h32 : (2 : Nat) ^ 32 = 4294967296 := by norm_num
    have h1 : v + 262144 * a + k < 2 ^ i := by omega
    have h2 : 262144 * a < 2 ^ i := by omega
    rw [Nat.testBit_and, Nat.testBit_lt_two_pow h1, Nat.testBit_lt_two_pow h2]
    rfl

theorem lor_keybit_eq_add {e : Nat} (he : e < 2147483648) :
    e ||| 2147483648 = e + 2147483648 := by
  have hp : (2147483648 : Nat) = 2 ^ 31 := by norm_num
  apply Nat.eq_of_testBit_eq
  intro i
  rw [Nat.testBit_or]
  rcases Nat.lt_trichotomy i 31 with hlt | heq | hgt
  · have h1 : (2147483648 : Nat).testBit i = false := by
      rw [hp]; exact Nat.testBit_two_pow_of_ne (Nat.ne_of_gt hlt)
    have h2 : (e + 2147483648).testBit i = e.testBit i := by
      rw [hp, Nat.add_comm]
      exact Nat.testBit_two_pow_add_gt hlt e
    rw [h1, h2, Bool.or_false]
  · subst heq
    have h1 : (2147483648 : Nat).testBit 31 = true := by
      rw [hp]; exact Nat.testBit_two_pow_self
    have he31 : e.testBit 31 = false := by
      apply Nat.testBit_lt_two_pow
      rw [← hp]; exact he
    have h2 : (e + 2147483648).testBit 31 = true := by
      rw [hp, Nat.add_comm, Nat.testBit_two_pow_add_eq, he31]
      rfl
    rw [h1, h2, Bool.or_true]
  · have hb : (2 : Nat) ^ 32 ≤ 2 ^ i := Nat.pow_le_pow_right (by norm_num) hgt
    have h32 : (2 : Nat) ^ 32 = 4294967296 := by norm_num
    have h1 : e.testBit i = false := by
      apply Nat.testBit_lt_two_pow; omega
    have h2 : (2147483648 : Nat).testBit i = false := by
      apply Nat.testBit_lt_two_pow; omega
    have h3 : (e + 2147483648).testBit i = false := by
      apply Nat.testBit_lt_two_pow; omega
    rw [h1, h2, h3]
    rfl

theorem land_keybit_or (e : Nat) : (e ||| 2147483648) &&& 2147483648 ≠ 0 := by
  intro h
  have h31 : ((e ||| 2147483648) &&& 2147483648).testBit 31 = false := by
    rw [h]; exact Nat.zero_testBit 31
  have hp : (2147483648 : Nat) = 2 ^ 31 := by norm_num
  rw [Nat.testBit_and, Nat.testBit_or, hp, Nat.testBit_two_pow_self,
    Bool.or_true, Bool.and_true] at h31
  simp at h31

theorem land_keybit_zero {e : Nat} (he : e < 2147483648) :
    e &&& 2147483648 = 0 := by
  have hp : (2147483648 : Nat) = 2 ^ 31 := by norm_num
  apply Nat.eq_of_testBit_eq
  intro i
  rw [Nat.testBit_and, Nat.zero_testBit]
  rcases eq_or_ne i 31 with rfl | hne
  · have h1 : e.testBit 31 = false := by
      apply Nat.testBit_lt_two_pow
      rw [← hp]; exact he
    rw [h1, Bool.false_and]
  · have h2 : (2147483648 : Nat).testBit i = false := by
      rw [hp]; exact Nat.testBit_two_pow_of_ne (fun hh => hne hh.symm)
    rw [h2, Bool.and_false]

theorem packFrameIndex_false_eq (v a : Nat) (hv : v ≤ 262143) (ha : a ≤ 8191) :
    packFrameIndex v a false = v + 262144 * a := by
  simp only [packFrameIndex, U32, AUDIO_BITSHIFT, Bool.false_eq_true, if_false]
  norm_num
  omega

theorem packFrameIndex_true_eq (v a : Nat) (hv : v ≤ 262143) (ha : a ≤ 8191) :
    packFrameIndex v a true = v + 262144 * a + 2147483648 := by
  have hU : U32 (v + AUDIO_BITSHIFT * a) = v + 262144 * a := by
    simp only [U32, AUDIO_BITSHIFT]
    norm_num
    omega
  simp only [packFrameIndex, hU, if_true, KEYFRAME_BITMASK]
  have he : v + 262144 * a < 2147483648 := by omega
  rw [show (0x80000000 : Nat) = 2147483648 from rfl, lor_keybit_eq_add he]

theorem packIndex_video (v a : Nat) (kf : Bool) (hv : v ≤ 262143) (ha : a ≤ 8191) :
    indexVideoSize (packFrameIndex v a kf) = v := by
  cases kf with
  | false =>
    rw [indexVideoSize, VIDEO_BITMASK, packFrameIndex_false_eq v a hv ha]
    have := land_video_mask v a 0 (by omega) (Or.inl rfl)
    simpa using this
  | true =>
    rw [indexVideoSize, VIDEO_BITMASK, packFrameIndex_true_eq v a hv ha]
    exact land_video_mask v a 2147483648 (by omega) (Or.inr rfl)

theorem packIndex_audio (v a : Nat) (kf : Bool) (hv : v ≤ 262143) (ha : a ≤ 8191) :
    indexAudioSize (packFrameIndex v a kf) = a := by
  cases kf with
  | false =>
    rw [indexAudioSize, AUDIO_BITMASK, AUDIO_BITSHIFT, packFrameIndex_false_eq v a hv ha]
    have := land_audio_mask v a 0 (by omega) (by omega) (Or.inl rfl)
    rw [show v + 262144 * a + 0 = v + 262144 * a by omega] at this
    rw [show (0x7ffc0000 : Nat) = 2147221504 from rfl, this]
    omega
  | true =>
    rw [indexAudioSize, AUDIO_BITMASK, AUDIO_BITSHIFT, packFrameIndex_true_eq v a hv ha]
    have := land_audio_mask v a 2147483648 (by omega) (by omega) (Or.inr rfl)
    rw [show (0x7ffc0000 : Nat) = 2147221504 from rfl, this]
    omega

theorem packIndex_keybit_of_true (v a : Nat) :
    packFrameIndex v a true &&& KEYFRAME_BITMASK ≠ 0 := by
  simp only [packFrameIndex, if_true, KEYFRAME_BITMASK]
  have := land_keybit_or (U32 (v + AUDIO_BITSHIFT * a))
  rw [show (0x80000000 : Nat) = 2147483648 from rfl]
  exact this

theorem packIndex_keybit_iff (v a : Nat) (kf : Bool) (hv : v ≤ 262143) (ha : a ≤ 8191) :
    (packFrameIndex v a kf &&& KEYFRAME_BITMASK ≠ 0 ↔ kf = true) := by
  cases kf with
  | false =>
    rw [packFrameIndex_false_eq v a hv ha, KEYFRAME_BITMASK]
    have hz := land_keybit_zero (e := v + 262144 * a) (by omega)
    rw [show (0x80000000 : Nat) = 2147483648 from rfl, hz]
    simp
  | true =>
    exact ⟨fun _ => rfl, fun _ => packIndex_keybit_of_true v a⟩

/-- C2: packing a per-frame index entry as `AVI_WriteFrame` does
(video size plus `0x40000` times audio size, keyframe bit or-ed in) and
unpacking it as `AVI_WriteIndex` does recovers exactly the original
triple, for video sizes up to 262143 and audio sizes up to 8191: the
packed layout is bits 0-17 video size, bits 18-30 audio size, bit 31
keyframe. -/
theorem pack_unpack_roundtrip (v a : Nat) (kf : Bool)
    (hv : v ≤ 262143) (ha : a ≤ 8191) :
    indexVideoSize (packFrameIndex v a kf) = v ∧
    indexAudioSize (packFrameIndex v a kf) = a ∧
    (packFrameIndex v a kf &&& KEYFRAME_BITMASK ≠ 0 ↔ kf = true) :=
  ⟨packIndex_video v a kf hv ha, packIndex_audio v a kf hv ha,
    packIndex_keybit_iff v a kf hv ha⟩

/-- Witness for C2 at `v = 100000`, `a = 5000`, keyframe set. -/
theorem pack_unpack_roundtrip_witness :
    indexVideoSize (packFrameIndex 100000 5000 true) = 100000 ∧
    indexAudioSize (packFrameIndex 100000 5000 true) = 5000 ∧
    (packFrameIndex 100000 5000 true &&& KEYFRAME_BITMASK ≠ 0 ↔ true = true) :=
  pack_unpack_roundtrip 100000 5000 true (by decide) (by decide)

/-! ### A seekable byte file

`FILE *` opened for writing is modelled as the list of bytes written so far
together with the current position.  A write at the current position
overwrites in place and extends the file at its end, which is exactly the
behaviour the C code relies on when it seeks back into the header. -/

structure CFile where
  bytes : List Nat
  pos : Nat

/-- Overwrite `data` into `l` starting at position `p` (extending at the
end). -/
def writeAt (l : List Nat) (p : Nat) (data : List Nat) : List Nat :=
  l.take p ++ data ++ l.drop (p + data.length)

theorem writeAt_length (l data : List Nat) (p : Nat) (h : p + data.length ≤ l.length) :
    (writeAt l p data).length = l.length := by
  simp [writeAt]
  omega

theorem writeAt_append (l data : List Nat) :
    writeAt l l.length data = l ++ data := by
  simp [writeAt]

theorem slice_append_left (x y : List Nat) (q k : Nat) (h : q + k ≤ x.length) :
    ((x ++ y).drop q).take k = (x.drop q).take k := by
  rw [List.drop_append_eq_append_drop]
  rw [List.take_append_eq_append_take]
  have h1 : q ≤ x.length := by omega
  have h2 : k ≤ (List.drop q x).length := by simp; omega
  simp only [Nat.sub_eq_zero_of_le h1, Nat.sub_eq_zero_of_le h2, List.drop_nil,
    List.take_zero, List.drop_zero, List.append_nil]

theorem writeAt_slice (l data : List Nat) (p : Nat) (h : p ≤ l.length) :
    ((writeAt l p data).drop p).take data.length = data := by
  have hlen : (l.take p).length = p := by simp; omega
  rw [writeAt, List.append_assoc, List.drop_append_eq_append_drop, hlen]
  rw [List.drop_take, Nat.sub_self, List.take_zero, List.nil_append, List.drop_zero,
    List.take_left' rfl]

theorem writeAt_slice_before (l data : List Nat) (p q k : Nat)
    (h : q + k ≤ p) (hp : p ≤ l.length) :
    ((writeAt l p data).drop q).take k = (l.drop q).take k := by
  rw [writeAt, List.append_assoc]
  rw [slice_append_left (l.take p) _ q k (by simp; omega)]
  rw [List.drop_take, List.take_take]
  have hmin : min k (p - q) = k := by omega
  rw [hmin]

/-- Append/overwrite `data` at the current position of the file. -/
def putBytes (f : CFile) (data : List Nat) : CFile :=
  { bytes := writeAt f.bytes f.pos data, pos := f.pos + data.length }

/-- `fputc` writes one byte (the int truncated to `unsigned char`). -/
def fputcF (c : Nat) (f : CFile) : CFile := putBytes f [c % 256]

/-- `fputw` on a file: two little-endian bytes. -/
def fputwF (x : Nat) (f : CFile) : CFile := putBytes f (fputwBytes x)

/-- `fputl` on a file: four little-endian bytes. -/
def fputlF (x : Nat) (f : CFile) : CFile := putBytes f (fputlBytes x)

/-- `fputs` of a fixed tag (the tag is given as its ASCII byte list). -/
def fputsF (s : List Nat) (f : CFile) : CFile := putBytes f s

/-- ASCII bytes of the tag `RIFF`. -/
def strRIFF : List Nat := [82, 73, 70, 70]

/-- ASCII bytes of the tag `WAVE`. -/
def strWAVE : List Nat := [87, 65, 86, 69]

/-- ASCII bytes of the tag `fmt `. -/
def strfmt : List Nat := [102, 109, 116, 32]

/-- ASCII bytes of the tag `data`. -/
def strdata : List Nat := [100, 97, 116, 97]

/-! ### WAV writer (file_export.c lines 686-824) -/

/-- The WAV session: the open file plus the `byteswritten`,
`frames_written` and `sample_size` globals used by the WAV code. -/
structure WavState where
  file : CFile
  byteswritten : Nat
  frames_written : Nat
  sample_size : Nat

/-- `WAV_OpenFile` (file_export.c lines 686-749): writes the 44-byte
RIFF/WAVE header with zero placeholders for the two length fields and
resets `byteswritten`.  `num_pokeys`, `playback_freq` and the sample size
come from the sound configuration. -/
def WAV_OpenFile (num_pokeys playback_freq ss : Nat) : WavState :=
  let f : CFile := { bytes := [], pos := 0 }
  let f := fputsF strRIFF f
  let f := fputlF 0 f
  let f := fputsF strWAVE f
  let f := fputsF strfmt f
  let f := fputlF 16 f
  let f := fputwF 1 f
  let f := fputwF num_pokeys f
  let f := fputlF playback_freq f
  let f := fputlF (playback_freq * ss) f
  let f := fputwF (num_pokeys * ss) f
  let f := fputwF (ss * 8) f
  let f := fputsF strdata f
  let f := fputlF 0 f
  { file := f, byteswritten := 0, frames_written := 0, sample_size := ss }

/-- `WAV_WriteSamples` (file_export.c lines 757-779) on a successful
(non-short) write: appends `num_samples * sample_size` bytes read from
`buf`, advances `byteswritten` and `frames_written`, and returns 0 once
the byte counter has passed `MAX_RECORDING_SIZE`. -/
def WAV_WriteSamples (buf : Nat → Nat) (num_samples : Nat) (w : WavState) :
    WavState × Nat :=
  if num_samples ≠ 0 then
    let result := num_samples * w.sample_size
    let f := putBytes w.file ((List.range result).map buf)
    let bw := U32 (w.byteswritten + result)
    let w' := { w with file := f, byteswritten := bw,
                       frames_written := U32 (w.frames_written + 1) }
    if bw > MAX_RECORDING_SIZE then (w', 0) else (w', result)
  else (w, 0)

/-- `WAV_CloseFile` (file_export.c lines 788-824).  `fp = none` models a
NULL file pointer.  I/O failures of the padding `putc` and of the two
`fseek` calls are injected through the three Bool parameters. -/
def WAV_CloseFile (byteswritten : Nat) (fp : Option CFile)
    (putcFails seekFails4 seekFails40 : Bool) : Option CFile × Bool :=
  match fp with
  | none => (none, true)
  | some f =>
    let t :=
      if byteswritten &&& 1 ≠ 0 then
        if putcFails then (f, false, 0)
        else (fputcF 0 f, true, 1)
      else (f, true, 0)
    match t with
    | (f1, bSuccess, aligned) =>
      if bSuccess then
        if seekFails4 then (some f1, false)
        else
          let f2 := fputlF (byteswritten + 36 + aligned) { f1 with pos := 4 }
          if seekFails40 then (some f2, false)
          else
            let f3 := fputlF byteswritten { f2 with pos := 40 }
            (some f3, true)
      else (some f1, false)

/-- Run a sequence of `WAV_WriteSamples` calls. -/
def WAV_run : List ((Nat → Nat) × Nat) → WavState → WavState
  | [], w => w
  | (b, n) :: rest, w => WAV_run rest (WAV_WriteSamples b n w).1

/-- Total PCM payload in bytes produced by a batch list. -/
def wavDataBytes (ss : Nat) (batches : List ((Nat → Nat) × Nat)) : Nat :=
  (batches.map (fun p => p.2 * ss)).sum

theorem WAV_OpenFile_pos (num_pokeys playback_freq ss : Nat) :
    (WAV_OpenFile num_pokeys playback_freq ss).file.pos = 44 := rfl

theorem WAV_OpenFile_length (num_pokeys playback_freq ss : Nat) :
    (WAV_OpenFile num_pokeys playback_freq ss).file.bytes.length = 44 := by
  simp [WAV_OpenFile, fputsF, fputlF, fputwF, putBytes, writeAt,
    fputlBytes, fputwBytes, strRIFF, strWAVE, strfmt, strdata]

theorem WAV_run_spec (batches : List ((Nat → Nat) × Nat)) :
    ∀ w : WavState, w.file.pos = w.file.bytes.length →
      w.byteswritten < 4294967296 →
      (WAV_run batches w).file.pos = (WAV_run batches w).file.bytes.length ∧
      (WAV_run batches w).file.bytes.length
        = w.file.bytes.length + wavDataBytes w.sample_size batches ∧
      (WAV_run batches w).byteswritten
        = U32 (w.byteswritten + wavDataBytes w.sample_size batches) ∧
      (WAV_run batches w).sample_size = w.sample_size := by
  induction batches with
  | nil =>
    intro w hw hbw
    refine ⟨hw, ?_, ?_, rfl⟩
    · simp [WAV_run, wavDataBytes]
    · simp [WAV_run, wavDataBytes, U32]
      omega
  | cons bn rest ih =>
    intro w hw hbw
    obtain ⟨b, n⟩ := bn
    by_cases hn : n = 0
    · subst hn
      have hstep : (WAV_WriteSamples b 0 w).1 = w := by
        simp [WAV_WriteSamples]
      have := ih w hw hbw
      simpa [WAV_run, hstep, wavDataBytes] using this
    · have hw1 : (WAV_WriteSamples b n w).1
          = { w with
              file := { bytes := w.file.bytes ++ (List.range (n * w.sample_size)).map b,
                        pos := w.file.pos + n * w.sample_size },
              byteswritten := U32 (w.byteswritten + n * w.sample_size),
              frames_written := U32 (w.frames_written + 1) } := by
        simp only [WAV_WriteSamples, if_pos hn, putBytes]
        rw [hw, writeAt_append]
        by_cases hmax : U32 (w.byteswritten + n * w.sample_size) > MAX_RECORDING_SIZE
        · simp [hmax, hw]
        · simp [hmax, hw]
      set w1 := (WAV_WriteSamples b n w).1 with hw1def
      have hpos1 : w1.file.pos = w1.file.bytes.length := by
        rw [hw1]
        simp [hw]
      have hbw1 : w1.byteswritten < 4294967296 := by
        rw [hw1]
        simp [U32]
        omega
      have hss1 : w1.sample_size = w.sample_size := by rw [hw1]
      have hlen1 : w1.file.bytes.length = w.file.bytes.length + n * w.sample_size := by
        rw [hw1]
        simp
      have hbwv1 : w1.byteswritten = U32 (w.byteswritten + n * w.sample_size) := by
        rw [hw1]
      have hrun : WAV_run ((b, n) :: rest) w = WAV_run rest w1 := rfl
      obtain ⟨ha, hb, hc, hd⟩ := ih w1 hpos1 hbw1
      rw [hrun]
      refine ⟨ha, ?_, ?_, by rw [hd, hss1]⟩
      · rw [hb, hss1, hlen1, wavDataBytes]
        simp [wavDataBytes]
        omega
      · rw [hc, hss1, hbwv1, wavDataBytes]
        simp [wavDataBytes, U32]
        omega

theorem WAV_CloseFile_success (bw : Nat) (f : CFile)
    (hpos : f.pos = f.bytes.length) (hlen : 44 ≤ f.bytes.length) :
    ∃ g : CFile,
      WAV_CloseFile bw (some f) false false false = (some g, true) ∧
      g.bytes.length = f.bytes.length + bw % 2 ∧
      (g.bytes.drop 4).take 4 = fputlBytes (bw + 36 + bw % 2) ∧
      (g.bytes.drop 40).take 4 = fputlBytes bw := by
  by_cases hodd : bw % 2 = 1
  · have hred : WAV_CloseFile bw (some f) false false false
        = (some (fputlF bw
            { fputlF (bw + 36 + 1) { fputcF 0 f with pos := 4 } with pos := 40 }),
           true) := by
      simp [WAV_CloseFile, hodd]
    have hb1 : (fputcF 0 f).bytes = f.bytes ++ [0] := by
      simp only [fputcF, putBytes, hpos]
      rw [writeAt_append]
    have hb1len : (fputcF 0 f).bytes.length = f.bytes.length + 1 := by
      rw [hb1]; simp
    have hb2 : (fputlF (bw + 36 + 1) { fputcF 0 f with pos := 4 }).bytes
        = writeAt (fputcF 0 f).bytes 4 (fputlBytes (bw + 36 + 1)) := by
      simp only [fputlF, putBytes]
    have hb2len : (fputlF (bw + 36 + 1) { fputcF 0 f with pos := 4 }).bytes.length
        = f.bytes.length + 1 := by
      rw [hb2, writeAt_length]
      · exact hb1len
      · rw [hb1len, fputlBytes_length]; omega
    have hb3 : (fputlF bw
          { fputlF (bw + 36 + 1) { fputcF 0 f with pos := 4 } with pos := 40 }).bytes
        = writeAt (fputlF (bw + 36 + 1) { fputcF 0 f with pos := 4 }).bytes 40
            (fputlBytes bw) := by
      simp only [fputlF, putBytes]
    refine ⟨_, hred, ?_, ?_, ?_⟩
    · rw [hb3, writeAt_length _ _ _ (by rw [hb2len, fputlBytes_length]; omega),
        hb2len, hodd]
    · rw [hb3, writeAt_slice_before _ _ 40 4 4 (by omega) (by rw [hb2len]; omega)]
      have hs := writeAt_slice (fputcF 0 f).bytes (fputlBytes (bw + 36 + 1)) 4
        (by rw [hb1len]; omega)
      rw [fputlBytes_length] at hs
      rw [hb2, hs, hodd]
    · rw [hb3]
      have hs := writeAt_slice (fputlF (bw + 36 + 1)
          { fputcF 0 f with pos := 4 }).bytes (fputlBytes bw) 40
        (by rw [hb2len]; omega)
      rw [fputlBytes_length] at hs
      exact hs
  · have heven : bw % 2 = 0 := by omega
    have hred : WAV_CloseFile bw (some f) false false false
        = (some (fputlF bw
            { fputlF (bw + 36 + 0) { f with pos := 4 } with pos := 40 }),
           true) := by
      simp [WAV_CloseFile, hodd]
    have hb2 : (fputlF (bw + 36 + 0) { f with pos := 4 }).bytes
        = writeAt f.bytes 4 (fputlBytes (bw + 36 + 0)) := by
      simp only [fputlF, putBytes]
    have hb2len : (fputlF (bw + 36 + 0) { f with pos := 4 }).bytes.length
        = f.bytes.length := by
      rw [hb2, writeAt_length]
      rw [fputlBytes_length]; omega
    have hb3 : (fputlF bw
          { fputlF (bw + 36 + 0) { f with pos := 4 } with pos := 40 }).bytes
        = writeAt (fputlF (bw + 36 + 0) { f with pos := 4 }).bytes 40
            (fputlBytes bw) := by
      simp only [fputlF, putBytes]
    refine ⟨_, hred, ?_, ?_, ?_⟩
    · rw [hb3, writeAt_length _ _ _ (by rw [hb2len, fputlBytes_length]; omega),
        hb2len, heven]
      omega
    · rw [hb3, writeAt_slice_before _ _ 40 4 4 (by omega) (by rw [hb2len]; omega)]
      have hs := writeAt_slice f.bytes (fputlBytes (bw + 36 + 0)) 4 (by omega)
      rw [fputlBytes_length] at hs
      rw [hb2, hs, heven]
    · rw [hb3]
      have hs := writeAt_slice (fputlF (bw + 36 + 0)
          { f with pos := 4 }).bytes (fputlBytes bw) 40
        (by rw [hb2len]; omega)
      rw [fputlBytes_length] at hs
      exact hs

/-- C6: after a WAV session writing `data_bytes` bytes of PCM data, a
successful `WAV_CloseFile` leaves the 32-bit little-endian value
`data_bytes + 36 + pad` at offset 4 and `data_bytes` at offset 40, with
`pad = data_bytes % 2`, and the file length equals
`44 + data_bytes + pad`. -/
theorem wav_close_header_patch (num_pokeys playback_freq ss : Nat)
    (batches : List ((Nat → Nat) × Nat))
    (hbound : wavDataBytes ss batches + 37 < 4294967296) :
    (WAV_CloseFile (WAV_run batches (WAV_OpenFile num_pokeys playback_freq ss)).byteswritten
        (some (WAV_run batches (WAV_OpenFile num_pokeys playback_freq ss)).file)
        false false false).2 = true ∧
    ∃ f : CFile,
      (WAV_CloseFile (WAV_run batches (WAV_OpenFile num_pokeys playback_freq ss)).byteswritten
        (some (WAV_run batches (WAV_OpenFile num_pokeys playback_freq ss)).file)
        false false false).1 = some f ∧
      f.bytes.length = 44 + wavDataBytes ss batches + wavDataBytes ss batches % 2 ∧
      (f.bytes.drop 4).take 4
        = fputlBytes (wavDataBytes ss batches + 36 + wavDataBytes ss batches % 2) ∧
      (f.bytes.drop 40).take 4 = fputlBytes (wavDataBytes ss batches) := by
  set d := wavDataBytes ss batches with hd
  set w0 := WAV_OpenFile num_pokeys playback_freq ss with hw0
  have hopen_pos : w0.file.pos = 44 := WAV_OpenFile_pos _ _ _
  have hopen_len : w0.file.bytes.length = 44 := WAV_OpenFile_length _ _ _
  have hopen_bw : w0.byteswritten = 0 := rfl
  have hopen_ss : w0.sample_size = ss := rfl
  obtain ⟨hpos, hlen, hbw, hss⟩ :=
    WAV_run_spec batches w0 (by rw [hopen_pos, hopen_len]) (by rw [hopen_bw]; norm_num)
  set w := WAV_run batches w0 with hwdef
  rw [hopen_ss, ← hd] at hlen hbw
  rw [hopen_len] at hlen
  rw [hopen_bw] at hbw
  have hbwd : w.byteswritten = d := by
    rw [hbw]
    simp [U32]
    omega
  obtain ⟨g, hg, hg1, hg2, hg3⟩ :=
    WAV_CloseFile_success d w.file hpos (by omega)
  rw [hbwd, hg]
  exact ⟨rfl, g, rfl, by rw [hg1, hlen], hg2, hg3⟩

/-- Witness for C6: one batch of 3 one-byte samples (odd payload). -/
theorem wav_close_header_patch_witness :
    (WAV_CloseFile (WAV_run [(fun _ => 7, 3)] (WAV_OpenFile 1 1000 1)).byteswritten
        (some (WAV_run [(fun _ => 7, 3)] (WAV_OpenFile 1 1000 1)).file)
        false false false).2 = true ∧
    ∃ f : CFile,
      (WAV_CloseFile (WAV_run [(fun _ => 7, 3)] (WAV_OpenFile 1 1000 1)).byteswritten
        (some (WAV_run [(fun _ => 7, 3)] (WAV_OpenFile 1 1000 1)).file)
        false false false).1 = some f ∧
      f.bytes.length = 44 + wavDataBytes 1 [(fun _ => 7, 3)]
          + wavDataBytes 1 [(fun _ => 7, 3)] % 2 ∧
      (f.bytes.drop 4).take 4
        = fputlBytes (wavDataBytes 1 [(fun _ => 7, 3)] + 36
            + wavDataBytes 1 [(fun _ => 7, 3)] % 2) ∧
      (f.bytes.drop 40).take 4 = fputlBytes (wavDataBytes 1 [(fun _ => 7, 3)]) :=
  wav_close_header_patch 1 1000 1 [(fun _ => 7, 3)] (by decide)

/-- C9: `WAV_CloseFile` on a NULL file performs no writes and returns
success; a failure return is only possible for a non-NULL file when the
padding write or one of the seeks fails. -/
theorem wav_close_null_ok (byteswritten : Nat) (putcFails seekFails4 seekFails40 : Bool) :
    WAV_CloseFile byteswritten none putcFails seekFails4 seekFails40 = (none, true) ∧
    (∀ f : CFile,
      (WAV_CloseFile byteswritten (some f) putcFails seekFails4 seekFails40).2 = false →
      (byteswritten &&& 1 ≠ 0 ∧ putcFails = true)
        ∨ seekFails4 = true ∨ seekFails40 = true) := by
  refine ⟨rfl, ?_⟩
  intro f hfail
  by_cases hodd : byteswritten % 2 = 1
  · cases putcFails with
    | true => exact Or.inl ⟨by rw [Nat.and_one_is_mod]; omega, rfl⟩
    | false =>
      cases seekFails4 with
      | true => exact Or.inr (Or.inl rfl)
      | false =>
        cases seekFails40 with
        | true => exact Or.inr (Or.inr rfl)
        | false =>
          exfalso
          simp [WAV_CloseFile, hodd] at hfail
  · cases seekFails4 with
    | true => exact Or.inr (Or.inl rfl)
    | false =>
      cases seekFails40 with
      | true => exact Or.inr (Or.inr rfl)
      | false =>
        exfalso
        simp [WAV_CloseFile, hodd] at hfail

/-- Witness for C9: odd byte count with a failing padding write. -/
theorem wav_close_null_ok_witness :
    ((1 : Nat) &&& 1 ≠ 0 ∧ true = true) ∨ false = true ∨ false = true :=
  (wav_close_null_ok 1 true false false).2 { bytes := List.replicate 45 0, pos := 45 }
    (by decide)

/-! ### PCX run-length encoding (file_export.c lines 480-558)

Only the non-interlaced path (`ptr2 == NULL`) is modelled: there the byte
compared and emitted is the raw screen byte `*ptr1`.  A scan line of the
cropped raster is a `List Nat` of pixel bytes; the raster is the list of
its scan lines.  The inner do-while loop of `PCX_SaveScreen` consumes one
run per iteration: `count` starts at 0xc0 and is incremented once per
pixel consumed while the next pixel still equals `last`, `count < 0xff`
and the scan line does not end, so a run consumes the leading pixel plus
up to 62 further equal pixels. -/

/-- Number of additional pixels (beyond the first) consumed by the run
loop: the length of the maximal prefix of the remaining scan line equal
to `v`, capped at `cap` (the C code caps at 62 because `count < 0xff`). -/
def runLen (v : Nat) : List Nat → Nat → Nat
  | [], _ => 0
  | x :: xs, cap => if cap = 0 then 0 else if x = v then runLen v xs (cap - 1) + 1 else 0

theorem runLen_le (v : Nat) (l : List Nat) (cap : Nat) : runLen v l cap ≤ cap := by
  induction l generalizing cap with
  | nil => simp [runLen]
  | cons x xs ih =>
    rw [runLen]
    split
    · omega
    · split
      · have := ih (cap - 1)
        omega
      · omega

theorem runLen_le_length (v : Nat) (l : List Nat) (cap : Nat) :
    runLen v l cap ≤ l.length := by
  induction l generalizing cap with
  | nil => simp [runLen]
  | cons x xs ih =>
    rw [runLen]
    split
    · omega
    · split
      · have := ih (cap - 1)
        simp
        omega
      · simp

theorem runLen_take (v : Nat) (l : List Nat) (cap : Nat) :
    l.take (runLen v l cap) = List.replicate (runLen v l cap) v := by
  induction l generalizing cap with
  | nil => simp [runLen]
  | cons x xs ih =>
    rw [runLen]
    split
    · simp
    · split
      · next hx =>
        subst hx
        simp [List.replicate_succ, ih]
      · simp

/-- One scan line of the PCX RLE stream, as emitted by the inner loop of
`PCX_SaveScreen` (file_export.c lines 517-532): for each run of length
`r = 1 + runLen`, the count byte `0xc0 + r` is emitted exactly when
`count > 0xc1` (a run of at least 2) or `last >= 0xc0`, followed by the
value byte; otherwise the single value byte is emitted raw. -/
def pcxEncodeRow : List Nat → List Nat
  | [] => []
  | v :: rest =>
    (if 1 < 1 + runLen v rest 62 ∨ 0xc0 ≤ v
       then [0xc0 + (1 + runLen v rest 62), v]
       else [v])
      ++ pcxEncodeRow (rest.drop (runLen v rest 62))
termination_by l => l.length
decreasing_by
  simp [List.length_drop]
  omega

/-- The full pixel stream of the non-interlaced save: each scan line is
encoded independently (the outer y-loop restarts the run logic at the
start of every line, so no run crosses a scan line). -/
def pcxEncodeRaster (rows : List (List Nat)) : List Nat :=
  (rows.map pcxEncodeRow).flatten

/-- A conformant PCX version-5 RLE reader: a byte at or above 0xc0 is a
count byte whose low six bits give the run length and the following byte
is the value; any other byte is a literal pixel.  (This definition
follows the format specification, not the source; it is the decoder the
claim measures the encoder against.) -/
def pcxDecode : List Nat → List Nat
  | [] => []
  | b :: rest =>
    if 0xc0 ≤ b then
      match rest with
      | [] => []
      | v :: rest2 => List.replicate (b - 0xc0) v ++ pcxDecode rest2
    else b :: pcxDecode rest

theorem pcxDecode_count (b v : Nat) (rest : List Nat) (hb : 0xc0 ≤ b) :
    pcxDecode (b :: v :: rest) = List.replicate (b - 0xc0) v ++ pcxDecode rest := by
  simp [pcxDecode, hb]

theorem pcxDecode_raw (b : Nat) (rest : List Nat) (hb : b < 0xc0) :
    pcxDecode (b :: rest) = b :: pcxDecode rest := by
  have h : ¬(0xc0 ≤ b) := by omega
  cases rest with
  | nil => simp [pcxDecode, h]
  | cons v r2 => simp [pcxDecode, h]

/-- Well-formed PCX version-5 RLE streams: a sequence of groups, each
either a raw byte below 0xc0 (a run of one) or a count byte `0xc0 + r`
with `1 ≤ r ≤ 63` followed by the value byte. -/
inductive PCXGroups : List Nat → Prop
  | nil : PCXGroups []
  | raw (v : Nat) (rest : List Nat) : v < 0xc0 → PCXGroups rest → PCXGroups (v :: rest)
  | run (r v : Nat) (rest : List Nat) : 1 ≤ r → r ≤ 63 → PCXGroups rest →
      PCXGroups ((0xc0 + r) :: v :: rest)

set_option maxRecDepth 4000 in
theorem pcxDecode_encodeRow_append (n : Nat) :
    ∀ row tail : List Nat, row.length ≤ n →
      pcxDecode (pcxEncodeRow row ++ tail) = row ++ pcxDecode tail := by
  induction n with
  | zero =>
    intro row tail h
    have hrow : row = [] := by
      cases row with
      | nil => rfl
      | cons a b => simp at h
    subst hrow
    simp [pcxEncodeRow]
  | succ n ih =>
    intro row tail h
    match row with
    | [] => simp [pcxEncodeRow]
    | v :: rest =>
      rw [pcxEncodeRow]
      by_cases hc : 1 < 1 + runLen v rest 62 ∨ 0xc0 ≤ v
      · rw [if_pos hc]
        have hdec : pcxDecode ((0xc0 + (1 + runLen v rest 62)) :: v ::
            (pcxEncodeRow (rest.drop (runLen v rest 62)) ++ tail))
            = List.replicate (1 + runLen v rest 62) v
              ++ pcxDecode (pcxEncodeRow (rest.drop (runLen v rest 62)) ++ tail) := by
          rw [pcxDecode_count _ _ _ (by omega)]
          congr 2
          omega
        simp only [List.cons_append, List.nil_append]
        rw [hdec]
        rw [ih (rest.drop (runLen v rest 62)) tail
          (by simp [List.length_drop] at h ⊢; omega)]
        have hsplit : List.replicate (1 + runLen v rest 62) v
            ++ rest.drop (runLen v rest 62) = v :: rest := by
          have h1 : List.replicate (1 + runLen v rest 62) v
              = v :: List.replicate (runLen v rest 62) v := by
            rw [Nat.add_comm, List.replicate_succ]
          rw [h1, List.cons_append, ← runLen_take v rest 62,
            List.take_append_drop]
        rw [← List.append_assoc, hsplit]
        simp
      · rw [if_neg hc]
        push_neg at hc
        obtain ⟨hr, hv⟩ := hc
        have hrl : runLen v rest 62 = 0 := by omega
        rw [hrl]
        simp only [List.cons_append, List.nil_append, List.drop_zero]
        rw [pcxDecode_raw _ _ (by omega)]
        rw [ih rest tail (by simp at h; omega)]

theorem pcxEncodeRow_groups (n : Nat) :
    ∀ row : List Nat, row.length ≤ n → PCXGroups (pcxEncodeRow row) := by
  induction n with
  | zero =>
    intro row h
    have hrow : row = [] := by
      cases row with
      | nil => rfl
      | cons a b => simp at h
    subst hrow
    rw [pcxEncodeRow]
    exact PCXGroups.nil
  | succ n ih =>
    intro row h
    match row with
    | [] =>
      rw [pcxEncodeRow]
      exact PCXGroups.nil
    | v :: rest =>
      rw [pcxEncodeRow]
      have htail : PCXGroups (pcxEncodeRow (rest.drop (runLen v rest 62))) :=
        ih _ (by simp [List.length_drop] at h ⊢; omega)
      by_cases hc : 1 < 1 + runLen v rest 62 ∨ 0xc0 ≤ v
      · rw [if_pos hc]
        simp only [List.cons_append, List.nil_append]
        have hle := runLen_le v rest 62
        exact PCXGroups.run (1 + runLen v rest 62) v _ (by omega) (by omega) htail
      · rw [if_neg hc]
        push_neg at hc
        simp only [List.cons_append, List.nil_append]
        exact PCXGroups.raw v _ (by omega) htail

theorem pcxDecode_encodeRow (row : List Nat) :
    pcxDecode (pcxEncodeRow row) = row := by
  have h := pcxDecode_encodeRow_append row.length row [] le_rfl
  simpa [pcxDecode] using h

/-- C7: the RLE stream emitted by the non-interlaced `PCX_SaveScreen`
decodes, under the PCX version-5 rules, back to the original cropped
raster (row by row and as a whole); every group it emits is either a
single raw byte below 0xc0 or a count byte `0xc0 + r` with `1 ≤ r ≤ 63`
followed by the value byte, and no run crosses a scan line (each line is
encoded independently). -/
theorem pcx_encode_decode_roundtrip (rows : List (List Nat)) :
    pcxDecode (pcxEncodeRaster rows) = rows.flatten ∧
    List.Forall₂ (fun e r => pcxDecode e = r) (rows.map pcxEncodeRow) rows ∧
    List.Forall PCXGroups (rows.map pcxEncodeRow) := by
  refine ⟨?_, ?_, ?_⟩
  · induction rows with
    | nil => simp [pcxEncodeRaster, pcxDecode]
    | cons row rest ih =>
      simp only [pcxEncodeRaster, List.map_cons, List.flatten_cons] at ih ⊢
      rw [pcxDecode_encodeRow_append row.length row _ le_rfl, ih]
  · induction rows with
    | nil => exact List.Forall₂.nil
    | cons row rest ih =>
      exact List.Forall₂.cons (pcxDecode_encodeRow row) ih
  · induction rows with
    | nil => simp
    | cons row rest ih =>
      simp only [List.map_cons, List.forall_cons]
      exact ⟨pcxEncodeRow_groups row.length row le_rfl, ih⟩

/-! ### AVI recording session (file_export.c lines 827-1385)

The session is modelled for the `SOUND` build (the only configuration in
which the audio claims are meaningful).  The file is modelled only where
the claims need it: `movi` holds the bytes of the `movi` LIST payload
(starting with the 4 `movi` tag bytes), `fpos` is the `ftell` position,
and the header written by `AVI_WriteHeader` is abstracted to its length
(`fpos` of the open state).  The video codec's three hooks are external:
`uses_interframes` is the codec flag, the `frame` hook's return value and
buffer output are inputs of `AVI_AddVideoFrame`, and the floating-point
keyframe-cadence computation of lines 1179-1186 (the only float code in
the writer) is abstracted as a state-passing oracle
`cad : Nat → Bool × Nat` consulted exactly where the C code runs it. -/

/-- ASCII bytes of the chunk tag `00dc` (stream 0, compressed video). -/
def tag00dc : List Nat := [48, 48, 100, 99]

/-- ASCII bytes of the chunk tag `01wb` (stream 1, PCM audio). -/
def tag01wb : List Nat := [48, 49, 119, 98]

/-- ASCII bytes of the tag `movi`. -/
def tagmovi : List Nat := [109, 111, 118, 105]

/-- ASCII bytes of the tag `idx1`. -/
def tagidx1 : List Nat := [105, 100, 120, 49]

/-- `FRAME_INDEX_ALLOC_SIZE` from file_export.c line 125. -/
def FRAME_INDEX_ALLOC_SIZE : Nat := 1000

/-- The AVI session state: the static variables of file_export.c that the
AVI writer reads and writes, plus the modelled file region. -/
structure AviState where
  movi : List Nat
  fpos : Nat
  size_riff : Nat
  size_movi : Nat
  byteswritten : Nat
  frames_written : Nat
  samples_written : Nat
  num_frames_allocated : Nat
  frame_indexes : List Nat
  current_screen_size : Int
  current_audio_samples : Int
  current_is_keyframe : Bool
  keyframe_state : Nat
  num_streams : Nat
  sample_size : Nat
  video_buffer : Nat → Nat
  audio_buffer : Nat → Nat
  audio_buffer_size : Nat
  total_video_size : Nat
  smallest_video_frame : Nat
  largest_video_frame : Nat

/-- The bytes of one `00dc` chunk as written by `AVI_WriteFrame` lines
1119-1124: tag, unpadded size, payload, and a zero pad byte when the
size is odd. -/
def videoChunkBytes (vbuf : Nat → Nat) (sz : Nat) : List Nat :=
  tag00dc ++ fputlBytes sz ++ (List.range sz).map vbuf
    ++ (if sz % 2 = 1 then [0] else [])

/-- The bytes of one `01wb` chunk as written by `AVI_WriteFrame` lines
1131-1136. -/
def audioChunkBytes (abuf : Nat → Nat) (sz : Nat) : List Nat :=
  tag01wb ++ fputlBytes sz ++ (List.range sz).map abuf
    ++ (if sz % 2 = 1 then [0] else [])

/-- On-disk length of a chunk with payload size `sz`:
8 header bytes plus payload plus word-alignment pad. -/
def paddedChunkLen (sz : Nat) : Nat := sz + 8 + sz % 2

theorem videoChunkBytes_length (vbuf : Nat → Nat) (sz : Nat) :
    (videoChunkBytes vbuf sz).length = paddedChunkLen sz := by
  by_cases h : sz % 2 = 1
  · simp [videoChunkBytes, paddedChunkLen, tag00dc, fputlBytes, h]
    try omega
  · simp [videoChunkBytes, paddedChunkLen, tag00dc, fputlBytes, h]
    try omega

theorem audioChunkBytes_length (abuf : Nat → Nat) (sz : Nat) :
    (audioChunkBytes abuf sz).length = paddedChunkLen sz := by
  by_cases h : sz % 2 = 1
  · simp [audioChunkBytes, paddedChunkLen, tag01wb, fputlBytes, h]
    try omega
  · simp [audioChunkBytes, paddedChunkLen, tag01wb, fputlBytes, h]
    try omega

/-- The size in bytes of the pending frame's video payload: the pending
`current_screen_size` sentinel (non-negative at every `AVI_WriteFrame`
call site, so `Int.toNat` is exact). -/
def pendingVideoSize (s : AviState) : Nat := s.current_screen_size.toNat

/-- The size in bytes of the pending frame's audio payload,
`current_audio_samples * sample_size` (zero in a one-stream session). -/
def pendingAudioSize (s : AviState) : Nat :=
  if s.num_streams = 2 then s.current_audio_samples.toNat * s.sample_size else 0

/-- The bytes `AVI_WriteFrame` appends to the `movi` payload for the
pending frame: the `00dc` chunk, then the `01wb` chunk when audio is
recorded. -/
def frameChunks (s : AviState) : List Nat :=
  videoChunkBytes s.video_buffer (pendingVideoSize s)
    ++ (if s.num_streams = 2 then audioChunkBytes s.audio_buffer (pendingAudioSize s) else [])

/-- `expected_frame_size` computed by `AVI_WriteFrame` lines 1125 and
1138: chunk headers plus unpadded payloads plus alignment pad bytes. -/
def expectedFrameSize (s : AviState) : Nat :=
  8 + pendingVideoSize s + pendingVideoSize s % 2
    + (if s.num_streams = 2 then 8 + pendingAudioSize s + pendingAudioSize s % 2 else 0)

/-- The state mutation performed by `AVI_WriteFrame` (file_export.c lines
1103-1196): append the chunks to the `movi` payload, record the packed
index entry (growing the index allocation when needed), advance the
statistics and `byteswritten` (by the chunk-group size plus 32 bytes for
the future index entry), update the keyframe cadence, and reset both
pending sentinels to -1. -/
def AVI_WriteFrame_state (uses_interframes : Bool) (cad : Nat → Bool × Nat)
    (s : AviState) : AviState :=
  { s with
    movi := s.movi ++ frameChunks s
    fpos := s.fpos + (frameChunks s).length
    byteswritten := U32 (s.byteswritten + (frameChunks s).length + 32)
    frames_written := s.frames_written + 1
    samples_written := if s.num_streams = 2
      then U32 (s.samples_written + s.current_audio_samples.toNat)
      else s.samples_written
    num_frames_allocated := if s.num_frames_allocated ≤ s.frames_written + 1
      then s.num_frames_allocated + FRAME_INDEX_ALLOC_SIZE
      else s.num_frames_allocated
    frame_indexes := s.frame_indexes
      ++ [packFrameIndex (pendingVideoSize s) (pendingAudioSize s) s.current_is_keyframe]
    current_screen_size := -1
    current_audio_samples := -1
    current_is_keyframe := if uses_interframes then (cad s.keyframe_state).1 else true
    keyframe_state := if uses_interframes then (cad s.keyframe_state).2 else s.keyframe_state
    total_video_size := U32 (s.total_video_size + pendingVideoSize s)
    smallest_video_frame := if pendingVideoSize s < s.smallest_video_frame
      then pendingVideoSize s else s.smallest_video_frame
    largest_video_frame := if s.largest_video_frame < pendingVideoSize s
      then pendingVideoSize s else s.largest_video_frame }

/-- `AVI_WriteFrame` (file_export.c lines 1103-1204): perform the state
mutation and return `false` (stop the recording) once the updated
`byteswritten` exceeds `MAX_RECORDING_SIZE`, otherwise return the result
of the `frame_size == expected_frame_size` write check. -/
def AVI_WriteFrame (uses_interframes : Bool) (cad : Nat → Bool × Nat)
    (s : AviState) : AviState × Bool :=
  if MAX_RECORDING_SIZE < U32 (s.byteswritten + (frameChunks s).length + 32)
    then (AVI_WriteFrame_state uses_interframes cad s, false)
    else (AVI_WriteFrame_state uses_interframes cad s,
          decide ((frameChunks s).length = expectedFrameSize s))

theorem frameChunks_length (s : AviState) :
    (frameChunks s).length = expectedFrameSize s := by
  unfold frameChunks expectedFrameSize
  by_cases h2 : s.num_streams = 2
  · simp [h2, videoChunkBytes_length, audioChunkBytes_length, paddedChunkLen]
    omega
  · simp [h2, videoChunkBytes_length, paddedChunkLen]
    omega

theorem AVI_WriteFrame_fst (uses_interframes : Bool) (cad : Nat → Bool × Nat)
    (s : AviState) :
    (AVI_WriteFrame uses_interframes cad s).1
      = AVI_WriteFrame_state uses_interframes cad s := by
  unfold AVI_WriteFrame
  split
  · rfl
  · rfl

theorem AVI_WriteFrame_state_byteswritten (uses_interframes : Bool)
    (cad : Nat → Bool × Nat) (s : AviState) :
    (AVI_WriteFrame_state uses_interframes cad s).byteswritten
      = U32 (s.byteswritten + (frameChunks s).length + 32) := rfl

theorem AVI_WriteFrame_state_frames_written (uses_interframes : Bool)
    (cad : Nat → Bool × Nat) (s : AviState) :
    (AVI_WriteFrame_state uses_interframes cad s).frames_written
      = s.frames_written + 1 := rfl

theorem AVI_WriteFrame_state_movi (uses_interframes : Bool)
    (cad : Nat → Bool × Nat) (s : AviState) :
    (AVI_WriteFrame_state uses_interframes cad s).movi
      = s.movi ++ frameChunks s := rfl

theorem AVI_WriteFrame_state_frame_indexes (uses_interframes : Bool)
    (cad : Nat → Bool × Nat) (s : AviState) :
    (AVI_WriteFrame_state uses_interframes cad s).frame_indexes
      = s.frame_indexes
        ++ [packFrameIndex (pendingVideoSize s) (pendingAudioSize s)
              s.current_is_keyframe] := rfl

theorem AVI_WriteFrame_state_num_streams (uses_interframes : Bool)
    (cad : Nat → Bool × Nat) (s : AviState) :
    (AVI_WriteFrame_state uses_interframes cad s).num_streams = s.num_streams := rfl

theorem AVI_WriteFrame_state_sample_size (uses_interframes : Bool)
    (cad : Nat → Bool × Nat) (s : AviState) :
    (AVI_WriteFrame_state uses_interframes cad s).sample_size = s.sample_size := rfl

theorem AVI_WriteFrame_state_video_buffer (uses_interframes : Bool)
    (cad : Nat → Bool × Nat) (s : AviState) :
    (AVI_WriteFrame_state uses_interframes cad s).video_buffer = s.video_buffer := rfl

theorem AVI_WriteFrame_state_audio_buffer (uses_interframes : Bool)
    (cad : Nat → Bool × Nat) (s : AviState) :
    (AVI_WriteFrame_state uses_interframes cad s).audio_buffer = s.audio_buffer := rfl

theorem AVI_WriteFrame_state_keyframe (uses_interframes : Bool)
    (cad : Nat → Bool × Nat) (s : AviState) :
    (AVI_WriteFrame_state uses_interframes cad s).current_is_keyframe
      = (if uses_interframes then (cad s.keyframe_state).1 else true) := rfl

theorem AVI_WriteFrame_state_sentinels (uses_interframes : Bool)
    (cad : Nat → Bool × Nat) (s : AviState) :
    (AVI_WriteFrame_state uses_interframes cad s).current_screen_size = -1 ∧
    (AVI_WriteFrame_state uses_interframes cad s).current_audio_samples = -1 :=
  ⟨rfl, rfl⟩

/-- `AVI_AddVideoFrame` (file_export.c lines 1211-1238).  The call to
`video_codec->frame` is an external hook; its return value `encoded` and
the buffer contents `newbuf` it produced are inputs. -/
def AVI_AddVideoFrame (uses_interframes : Bool) (cad : Nat → Bool × Nat)
    (encoded : Int) (newbuf : Nat → Nat) (s : AviState) : AviState × Bool :=
  if 0 ≤ s.current_screen_size then
    if s.num_streams = 1 ∨ 0 < s.current_audio_samples then
      match AVI_WriteFrame uses_interframes cad s with
      | (s1, false) => (s1, false)
      | (s1, true) =>
          ({ s1 with current_screen_size := encoded, video_buffer := newbuf },
           decide (0 ≤ encoded))
    else (s, false)
  else if s.current_screen_size < -1 ∨ s.current_audio_samples < -1 then
    (s, false)
  else
    ({ s with current_screen_size := encoded, video_buffer := newbuf },
     decide (0 ≤ encoded))

/-- The tail of `AVI_AddAudioSamples` (file_export.c lines 1265-1275):
the size check against the audio scratch buffer, the error sentinel on
overflow, and otherwise the `memcpy` into the scratch buffer and the
pending-count update. -/
def AVI_AddAudioSamples_store (buf : Nat → Nat) (num_samples : Nat)
    (s : AviState) : AviState × Bool :=
  if s.audio_buffer_size < num_samples * s.sample_size then
    ({ s with current_audio_samples := -2 }, false)
  else
    ({ s with current_audio_samples := Int.ofNat num_samples,
              audio_buffer := fun i =>
                if i < num_samples * s.sample_size then buf i
                else s.audio_buffer i },
     true)

/-- `AVI_AddAudioSamples` (file_export.c lines 1246-1276). -/
def AVI_AddAudioSamples (uses_interframes : Bool) (cad : Nat → Bool × Nat)
    (buf : Nat → Nat) (num_samples : Nat) (s : AviState) : AviState × Bool :=
  if 0 ≤ s.current_audio_samples then
    if 0 ≤ s.current_screen_size then
      match AVI_WriteFrame uses_interframes cad s with
      | (s1, false) => (s1, false)
      | (s1, true) => AVI_AddAudioSamples_store buf num_samples s1
    else (s, false)
  else if s.current_screen_size < -1 ∨ s.current_audio_samples < -1 then
    (s, false)
  else AVI_AddAudioSamples_store buf num_samples s

/-- One idx1 record pair as written per frame by the loop of
`AVI_WriteIndex` (file_export.c lines 1305-1323): the `00dc` entry
(flags, offset, video size) followed by the `01wb` entry (flags 0x10,
offset advanced by the padded video chunk, audio size). -/
def idxEntryBlock (e offset : Nat) : List Nat :=
  tag00dc ++ fputlBytes (indexKeyframeFlag e) ++ fputlBytes offset
    ++ fputlBytes (indexVideoSize e)
    ++ tag01wb ++ fputlBytes 0x10
    ++ fputlBytes (offset + indexVideoSize e + 8 + indexVideoSize e % 2)
    ++ fputlBytes (indexAudioSize e)

/-- The offset accumulator after one frame of the `AVI_WriteIndex` loop:
both chunks advance it by their padded length. -/
def idxNextOffset (e offset : Nat) : Nat :=
  offset + indexVideoSize e + 8 + indexVideoSize e % 2
    + (indexAudioSize e + 8 + indexAudioSize e % 2)

/-- The body of the `AVI_WriteIndex` loop over all recorded frames. -/
def idxEntryBytes : List Nat → Nat → List Nat
  | [], _ => []
  | e :: rest, offset => idxEntryBlock e offset ++ idxEntryBytes rest (idxNextOffset e offset)

/-- `AVI_WriteIndex` (file_export.c lines 1279-1328): returns the bytes
of the `idx1` chunk it appends and its success flag; it refuses to write
anything when no frames were recorded. -/
def AVI_WriteIndex (s : AviState) : List Nat × Bool :=
  if s.frames_written = 0 then ([], false)
  else
    let index_size := s.frames_written * 16 * 2
    let bytes := tagidx1 ++ fputlBytes index_size
        ++ idxEntryBytes (s.frame_indexes.take s.frames_written) 4
    (bytes, decide (bytes.length = 8 + index_size))

/-- `AVI_OpenFile` (file_export.c lines 1027-1099) after a successful
header write: `headerLen` is the file position after `AVI_WriteHeader`
(the header bytes themselves are not needed by the claims), so
`size_movi` holds the position of the `movi` payload (4 bytes before the
end of the header, line 1014) and `byteswritten` starts at the header
size plus 8 (line 1093).  `sound_enabled`, the sample size and the audio
buffer size come from the sound configuration, and `vbuf` is the codec
video scratch buffer. -/
def AVI_OpenFile (headerLen : Nat) (sound_enabled : Bool) (ss audio_bufsize : Nat)
    (vbuf : Nat → Nat) : AviState :=
  { movi := tagmovi
    fpos := headerLen
    size_riff := 0
    size_movi := headerLen - 4
    byteswritten := headerLen + 8
    frames_written := 0
    samples_written := 0
    num_frames_allocated := FRAME_INDEX_ALLOC_SIZE
    frame_indexes := []
    current_screen_size := -1
    current_audio_samples := -1
    current_is_keyframe := true
    keyframe_state := 0
    num_streams := if sound_enabled then 2 else 1
    sample_size := if sound_enabled then ss else 0
    video_buffer := vbuf
    audio_buffer := fun _ => 0
    audio_buffer_size := if sound_enabled then audio_bufsize else 0
    total_video_size := 0
    smallest_video_frame := 0xffffffff
    largest_video_frame := 0 }

/-- The observable actions of `AVI_CloseFile`: the final state, the
return value, whether the pending frame was flushed, the bytes of the
`idx1` chunk that were appended (empty when none), whether the header
was rewritten with the final sizes, and the resource-release actions
(`video_codec->end()`, the three `free`s, `fclose`). -/
structure AviCloseOut where
  state : AviState
  result : Bool
  flushedFinal : Bool
  idxBytes : List Nat
  wroteHeader : Bool
  calledEnd : Bool
  freedVideoBuffer : Bool
  freedAudioBuffer : Bool
  freedFrameIndexes : Bool
  closedFile : Bool

/-- `AVI_CloseFile` (file_export.c lines 1336-1384): flush the pending
frame when both sentinels hold sizes, finalize `size_movi`, write the
index, finalize `size_riff` and rewrite the header — each step only if
everything before it succeeded — then unconditionally close the file,
release the audio buffer (when one was allocated), call the codec's
`end` hook, and release the video buffer and the index storage. -/
def AVI_CloseFile (uses_interframes : Bool) (cad : Nat → Bool × Nat)
    (s : AviState) : AviCloseOut :=
  let fl :=
    if 0 ≤ s.current_screen_size ∧ 0 ≤ s.current_audio_samples then
      let ws := AVI_WriteFrame uses_interframes cad s
      (ws.1, ws.2, true)
    else (s, true, false)
  let s1 := fl.1
  let result1 := fl.2.1
  let flushed := fl.2.2
  let step2 :=
    if result1 then
      let s2 := { s1 with size_movi := s1.fpos - s1.size_movi }
      let wi := AVI_WriteIndex s2
      ({ s2 with fpos := s2.fpos + wi.1.length }, wi.1, wi.2)
    else (s1, ([] : List Nat), false)
  let s2 := step2.1
  let idxBytes := step2.2.1
  let result2 := step2.2.2
  let step3 :=
    if result2 then
      ({ s2 with size_riff := s2.fpos - 8 }, true, true)
    else (s2, false, false)
  let s3 := step3.1
  let result3 := step3.2.1
  let wroteHeader := step3.2.2
  let s4 := { s3 with
    audio_buffer_size := 0
    current_audio_samples := -1
    current_screen_size := -1
    frame_indexes := []
    num_frames_allocated := 0 }
  { state := s4
    result := result3
    flushedFinal := flushed
    idxBytes := idxBytes
    wroteHeader := wroteHeader
    calledEnd := true
    freedVideoBuffer := true
    freedAudioBuffer := decide (0 < s.audio_buffer_size)
    freedFrameIndexes := true
    closedFile := true }

/-- The host-visible calls that mutate an open session between open and
close: each `AVI_AddVideoFrame` with the codec's result, each
`AVI_AddAudioSamples` with its sample batch. -/
inductive AviEvent where
  | addVideo (encoded : Int) (newbuf : Nat → Nat)
  | addAudio (buf : Nat → Nat) (num_samples : Nat)

/-- Run a sequence of add-video / add-audio calls on a session. -/
def AVI_run (uses_interframes : Bool) (cad : Nat → Bool × Nat) :
    List AviEvent → AviState → AviState
  | [], s => s
  | AviEvent.addVideo e nb :: rest, s =>
      AVI_run uses_interframes cad rest
        (AVI_AddVideoFrame uses_interframes cad e nb s).1
  | AviEvent.addAudio b n :: rest, s =>
      AVI_run uses_interframes cad rest
        (AVI_AddAudioSamples uses_interframes cad b n s).1

/-! ### C4: the recording size limit -/

/-- A trivial keyframe-cadence oracle used for concrete instances. -/
def cad0 : Nat → Bool × Nat := fun k => (false, k)

/-- An all-zero scratch buffer used for concrete instances. -/
def zerobuf : Nat → Nat := fun _ => 0

/-- A two-stream session that has reached `byteswritten` of exactly
`MAX_RECORDING_SIZE` with an empty pending frame (screen size 0, zero
audio samples). -/
def aviAtLimit : AviState :=
  { movi := tagmovi
    fpos := 100
    size_riff := 0
    size_movi := 96
    byteswritten := 0xfff00000
    frames_written := 0
    samples_written := 0
    num_frames_allocated := 1000
    frame_indexes := []
    current_screen_size := 0
    current_audio_samples := 0
    current_is_keyframe := true
    keyframe_state := 0
    num_streams := 2
    sample_size := 1
    video_buffer := zerobuf
    audio_buffer := zerobuf
    audio_buffer_size := 2000
    total_video_size := 0
    smallest_video_frame := 0xffffffff
    largest_video_frame := 0 }

set_option maxHeartbeats 4000000 in
/-- Counterexample to C4 as stated: `byteswritten` is *not* bounded by
`MAX_RECORDING_SIZE` after every `AVI_WriteFrame` call.  From a state
with `byteswritten = MAX_RECORDING_SIZE` (within the claimed bound), one
more flushed frame leaves `byteswritten` above the bound: the code first
adds `frame_size + 32` and only afterwards compares, so the limit is
exceeded by the final frame and only the return value signals stop. -/
theorem byteswritten_can_exceed_max :
    aviAtLimit.byteswritten ≤ MAX_RECORDING_SIZE ∧
    MAX_RECORDING_SIZE < (AVI_WriteFrame false cad0 aviAtLimit).1.byteswritten ∧
    (AVI_WriteFrame false cad0 aviAtLimit).2 = false := by
  refine ⟨by decide, by decide, by decide⟩

/-- C4 amended: `AVI_WriteFrame` returns success exactly when the updated
`byteswritten` is still at most `MAX_RECORDING_SIZE`; in particular after
every call that does not signal stop the bound holds, and the call whose
frame pushes `byteswritten` past the bound returns the stop signal, so
recording terminates at the first frame that crosses the bound (which may
exceed it by that one frame's bytes). -/
theorem writeFrame_stop_iff_limit (uses_interframes : Bool) (cad : Nat → Bool × Nat)
    (s : AviState) :
    (AVI_WriteFrame uses_interframes cad s).2
      = decide ((AVI_WriteFrame uses_interframes cad s).1.byteswritten
          ≤ MAX_RECORDING_SIZE) := by
  unfold AVI_WriteFrame
  split
  · next hgt =>
    dsimp only
    rw [AVI_WriteFrame_state_byteswritten]
    exact (decide_eq_false (by omega)).symm
  · next hle =>
    dsimp only
    rw [AVI_WriteFrame_state_byteswritten, decide_eq_true (frameChunks_length s),
      decide_eq_true (show U32 (s.byteswritten + (frameChunks s).length + 32)
        ≤ MAX_RECORDING_SIZE by omega)]

/-! ### C3: when does `AVI_AddVideoFrame` flush, when does it fail -/

/-- A two-stream session state with a pending encoded video frame (size
5) and a pending audio batch of zero samples — reachable by calling
`AVI_AddAudioSamples` with `num_samples = 0`. -/
def aviPendingZeroAudio : AviState :=
  { aviAtLimit with byteswritten := 2000, current_screen_size := 5 }

/-- Counterexample to C3 as stated: with a pending video size (5 ≥ 0)
and a pending audio sample count that is set but zero,
`AVI_AddVideoFrame` does not flush the pending frame — it takes the
out-of-phase error path (the code tests `current_audio_samples > 0`, not
`>= 0`), returns failure and leaves the session unchanged. -/
theorem addVideo_zero_audio_not_flushed :
    0 ≤ aviPendingZeroAudio.current_screen_size ∧
    0 ≤ aviPendingZeroAudio.current_audio_samples ∧
    aviPendingZeroAudio.num_streams = 2 ∧
    (AVI_AddVideoFrame false cad0 7 zerobuf aviPendingZeroAudio).2 = false ∧
    (AVI_AddVideoFrame false cad0 7 zerobuf aviPendingZeroAudio).1.frames_written
      = aviPendingZeroAudio.frames_written := by
  refine ⟨by decide, by decide, by decide, by decide, by decide⟩

/-- C3 amended: in a two-stream session, `AVI_AddVideoFrame` with a
pending video size flushes the pending frame via `AVI_WriteFrame`
exactly when the pending audio sample count is strictly positive; when
the pending video size exists and the pending audio count is zero, unset
(-1) or an error value, the call fails and the state is unchanged (the
out-of-phase error). -/
theorem addVideo_flush_iff_audio_pending (uses_interframes : Bool)
    (cad : Nat → Bool × Nat) (encoded : Int) (newbuf : Nat → Nat) (s : AviState)
    (h2 : s.num_streams = 2) :
    (0 ≤ s.current_screen_size → 0 < s.current_audio_samples →
      (AVI_AddVideoFrame uses_interframes cad encoded newbuf s).1.frames_written
        = s.frames_written + 1) ∧
    (0 ≤ s.current_screen_size → s.current_audio_samples ≤ 0 →
      AVI_AddVideoFrame uses_interframes cad encoded newbuf s = (s, false)) := by
  constructor
  · intro hs ha
    unfold AVI_AddVideoFrame
    rw [if_pos hs, if_pos (Or.inr ha)]
    rcases hw : AVI_WriteFrame uses_interframes cad s with ⟨s1, r⟩
    have hs1 : s1 = AVI_WriteFrame_state uses_interframes cad s := by
      have hfst := AVI_WriteFrame_fst uses_interframes cad s
      rw [hw] at hfst
      exact hfst
    cases r
    · dsimp only
      rw [hs1, AVI_WriteFrame_state_frames_written]
    · dsimp only
      rw [hs1, AVI_WriteFrame_state_frames_written]
  · intro hs ha
    unfold AVI_AddVideoFrame
    have hcond : ¬(s.num_streams = 1 ∨ 0 < s.current_audio_samples) := by
      intro h
      rcases h with h | h
      · omega
      · omega
    rw [if_pos hs, if_neg hcond]

/-- Witness for C3 amended: a session with pending video and a positive
pending audio count flushes (the frame counter advances). -/
def aviPendingBoth : AviState :=
  { aviAtLimit with byteswritten := 2000, current_screen_size := 5,
                    current_audio_samples := 3 }

theorem addVideo_flush_iff_audio_pending_witness :
    (AVI_AddVideoFrame false cad0 7 zerobuf aviPendingBoth).1.frames_written
      = aviPendingBoth.frames_written + 1 :=
  (addVideo_flush_iff_audio_pending false cad0 7 zerobuf aviPendingBoth
    (by decide)).1 (by decide) (by decide)

/-! ### C8: audio-overflow poisoning -/

theorem poisoned_addVideo (uses_interframes : Bool) (cad : Nat → Bool × Nat)
    (encoded : Int) (newbuf : Nat → Nat) (s : AviState)
    (h2 : s.num_streams = 2) (hp : s.current_audio_samples < -1) :
    AVI_AddVideoFrame uses_interframes cad encoded newbuf s = (s, false) := by
  unfold AVI_AddVideoFrame
  by_cases hs : 0 ≤ s.current_screen_size
  · have hcond : ¬(s.num_streams = 1 ∨ 0 < s.current_audio_samples) := by
      intro h
      rcases h with h | h
      · omega
      · omega
    rw [if_pos hs, if_neg hcond]
  · rw [if_neg hs, if_pos (Or.inr hp)]

theorem poisoned_addAudio (uses_interframes : Bool) (cad : Nat → Bool × Nat)
    (buf : Nat → Nat) (num_samples : Nat) (s : AviState)
    (hp : s.current_audio_samples < -1) :
    AVI_AddAudioSamples uses_interframes cad buf num_samples s = (s, false) := by
  unfold AVI_AddAudioSamples
  rw [if_neg (by omega), if_pos (Or.inr hp)]

theorem poisoned_run (uses_interframes : Bool) (cad : Nat → Bool × Nat) :
    ∀ (events : List AviEvent) (s : AviState), s.num_streams = 2 →
      s.current_audio_samples < -1 →
      AVI_run uses_interframes cad events s = s := by
  intro events
  induction events with
  | nil => intro s h2 hp; rfl
  | cons ev rest ih =>
    intro s h2 hp
    cases ev with
    | addVideo e nb =>
      rw [AVI_run, poisoned_addVideo uses_interframes cad e nb s h2 hp]
      exact ih s h2 hp
    | addAudio b n =>
      rw [AVI_run, poisoned_addAudio uses_interframes cad b n s hp]
      exact ih s h2 hp

/-- C8: an `AVI_AddAudioSamples` call whose byte size exceeds the audio
scratch buffer returns failure without copying anything (the buffer is
unchanged), sets the pending audio sentinel to the error value -2, and
poisons the session: every subsequent `AVI_AddVideoFrame` or
`AVI_AddAudioSamples` call returns failure and leaves the session
untouched, for as long as the session is open. -/
theorem audio_overflow_poisons (uses_interframes : Bool) (cad : Nat → Bool × Nat)
    (buf : Nat → Nat) (num_samples : Nat) (s : AviState)
    (h2 : s.num_streams = 2)
    (hidle : s.current_audio_samples = -1)
    (hscr : -1 ≤ s.current_screen_size)
    (hof : s.audio_buffer_size < num_samples * s.sample_size) :
    AVI_AddAudioSamples uses_interframes cad buf num_samples s
      = ({ s with current_audio_samples := -2 }, false) ∧
    (AVI_AddAudioSamples uses_interframes cad buf num_samples s).1.audio_buffer
      = s.audio_buffer ∧
    (∀ events : List AviEvent,
      AVI_run uses_interframes cad events
          (AVI_AddAudioSamples uses_interframes cad buf num_samples s).1
        = (AVI_AddAudioSamples uses_interframes cad buf num_samples s).1) ∧
    (∀ (encoded : Int) (newbuf : Nat → Nat),
      (AVI_AddVideoFrame uses_interframes cad encoded newbuf
          (AVI_AddAudioSamples uses_interframes cad buf num_samples s).1).2 = false) ∧
    (∀ (buf2 : Nat → Nat) (n2 : Nat),
      (AVI_AddAudioSamples uses_interframes cad buf2 n2
          (AVI_AddAudioSamples uses_interframes cad buf num_samples s).1).2 = false) := by
  have heq : AVI_AddAudioSamples uses_interframes cad buf num_samples s
      = ({ s with current_audio_samples := -2 }, false) := by
    unfold AVI_AddAudioSamples
    have hc1 : ¬(0 ≤ s.current_audio_samples) := by omega
    have hc2 : ¬(s.current_screen_size < -1 ∨ s.current_audio_samples < -1) := by
      intro h
      rcases h with h | h
      · omega
      · omega
    rw [if_neg hc1, if_neg hc2]
    unfold AVI_AddAudioSamples_store
    rw [if_pos hof]
  have h2p : ({ s with current_audio_samples := -2 } : AviState).num_streams = 2 := h2
  have hpp : ({ s with current_audio_samples := -2 } : AviState).current_audio_samples
      < -1 := by
    show (-2 : Int) < -1
    decide
  refine ⟨heq, ?_, ?_, ?_, ?_⟩
  · rw [heq]
  · intro events
    rw [heq]
    exact poisoned_run uses_interframes cad events _ h2p hpp
  · intro encoded newbuf
    rw [heq]
    rw [poisoned_addVideo uses_interframes cad encoded newbuf _ h2p hpp]
  · intro buf2 n2
    rw [heq]
    rw [poisoned_addAudio uses_interframes cad buf2 n2 _ hpp]

/-- A freshly opened two-stream session: sample size 1 byte, audio
scratch capacity 4 bytes. -/
def aviFresh : AviState := AVI_OpenFile 100 true 1 4 zerobuf

/-- Witness for C8: a 5-sample batch against a 4-byte buffer. -/
theorem audio_overflow_poisons_witness :
    AVI_AddAudioSamples false cad0 zerobuf 5 aviFresh
      = ({ aviFresh with current_audio_samples := -2 }, false) ∧
    (AVI_AddAudioSamples false cad0 zerobuf 5 aviFresh).1.audio_buffer
      = aviFresh.audio_buffer ∧
    (∀ events : List AviEvent,
      AVI_run false cad0 events (AVI_AddAudioSamples false cad0 zerobuf 5 aviFresh).1
        = (AVI_AddAudioSamples false cad0 zerobuf 5 aviFresh).1) ∧
    (∀ (encoded : Int) (newbuf : Nat → Nat),
      (AVI_AddVideoFrame false cad0 encoded newbuf
          (AVI_AddAudioSamples false cad0 zerobuf 5 aviFresh).1).2 = false) ∧
    (∀ (buf2 : Nat → Nat) (n2 : Nat),
      (AVI_AddAudioSamples false cad0 buf2 n2
          (AVI_AddAudioSamples false cad0 zerobuf 5 aviFresh).1).2 = false) :=
  audio_overflow_poisons false cad0 zerobuf 5 aviFresh (by decide) (by decide)
    (by decide) (by decide)

/-! ### C10: closing a session with zero recorded frames -/

/-- C10: `AVI_CloseFile` on a session with no recorded frames and no
flushable pending frame returns failure — `AVI_WriteIndex` returns 0
when `frames_written` is 0, so no `idx1` chunk is emitted and the header
is never rewritten (the header's placeholder sizes from open remain on
disk); the codec's `end` hook is nonetheless invoked, the video buffer,
the audio buffer (when allocated) and the index storage are released,
and the file is closed. -/
theorem close_zero_frames_fails (uses_interframes : Bool) (cad : Nat → Bool × Nat)
    (s : AviState) (hf : s.frames_written = 0)
    (hnp : ¬(0 ≤ s.current_screen_size ∧ 0 ≤ s.current_audio_samples)) :
    (AVI_CloseFile uses_interframes cad s).result = false ∧
    (AVI_CloseFile uses_interframes cad s).idxBytes = [] ∧
    (AVI_CloseFile uses_interframes cad s).wroteHeader = false ∧
    (AVI_CloseFile uses_interframes cad s).state.size_riff = s.size_riff ∧
    (AVI_CloseFile uses_interframes cad s).flushedFinal = false ∧
    (AVI_CloseFile uses_interframes cad s).calledEnd = true ∧
    (AVI_CloseFile uses_interframes cad s).freedVideoBuffer = true ∧
    (AVI_CloseFile uses_interframes cad s).freedAudioBuffer
      = decide (0 < s.audio_buffer_size) ∧
    (AVI_CloseFile uses_interframes cad s).freedFrameIndexes = true ∧
    (AVI_CloseFile uses_interframes cad s).closedFile = true := by
  have hidx : AVI_WriteIndex { s with size_movi := s.fpos - s.size_movi }
      = ([], false) := by
    unfold AVI_WriteIndex
    rw [if_pos hf]
  unfold AVI_CloseFile
  rw [if_neg hnp]
  dsimp only
  rw [hidx]
  dsimp only
  exact ⟨rfl, rfl, rfl, rfl, rfl, rfl, rfl, rfl, rfl, rfl⟩

/-! ### C5: keyframe invariants -/

/-- With a non-interframe codec the session keyframe invariant: the
pending-frame keyframe flag stays set and every recorded index entry
carries the keyframe bit. -/
def KeyframeInv (s : AviState) : Prop :=
  s.current_is_keyframe = true ∧
  ∀ e ∈ s.frame_indexes, e &&& KEYFRAME_BITMASK ≠ 0

/-- Storage invariant: the index list holds exactly the recorded frames. -/
def LenInv (s : AviState) : Prop :=
  s.frame_indexes.length = s.frames_written

/-- First-frame invariant (any codec): while no frame is recorded the
pending keyframe flag is still the initial `true`, and once frames
exist, the first recorded entry carries the keyframe bit. -/
def FirstKeyInv (s : AviState) : Prop :=
  (s.frame_indexes = [] → s.current_is_keyframe = true) ∧
  (∀ e, s.frame_indexes.head? = some e → e &&& KEYFRAME_BITMASK ≠ 0)

theorem writeFrame_state_KeyframeInv (cad : Nat → Bool × Nat) (s : AviState)
    (h : KeyframeInv s) : KeyframeInv (AVI_WriteFrame_state false cad s) := by
  constructor
  · rw [AVI_WriteFrame_state_keyframe]
    simp
  · rw [AVI_WriteFrame_state_frame_indexes]
    intro e he
    rcases List.mem_append.mp he with h1 | h1
    · exact h.2 e h1
    · rw [List.mem_singleton] at h1
      subst h1
      rw [h.1]
      exact packIndex_keybit_of_true _ _

theorem addVideo_KeyframeInv (cad : Nat → Bool × Nat) (encoded : Int)
    (newbuf : Nat → Nat) (s : AviState) (h : KeyframeInv s) :
    KeyframeInv (AVI_AddVideoFrame false cad encoded newbuf s).1 := by
  unfold AVI_AddVideoFrame
  split
  · split
    · rcases hw : AVI_WriteFrame false cad s with ⟨s1, r⟩
      have hs1 : s1 = AVI_WriteFrame_state false cad s := by
        have hfst := AVI_WriteFrame_fst false cad s
        rw [hw] at hfst
        exact hfst
      have hinv := writeFrame_state_KeyframeInv cad s h
      rw [← hs1] at hinv
      cases r
      · exact hinv
      · exact hinv
    · exact h
  · split
    · exact h
    · exact h

theorem store_KeyframeInv (buf : Nat → Nat) (n : Nat) (s : AviState)
    (h : KeyframeInv s) : KeyframeInv (AVI_AddAudioSamples_store buf n s).1 := by
  unfold AVI_AddAudioSamples_store
  split
  · exact h
  · exact h

theorem addAudio_KeyframeInv (cad : Nat → Bool × Nat) (buf : Nat → Nat)
    (n : Nat) (s : AviState) (h : KeyframeInv s) :
    KeyframeInv (AVI_AddAudioSamples false cad buf n s).1 := by
  unfold AVI_AddAudioSamples
  split
  · split
    · rcases hw : AVI_WriteFrame false cad s with ⟨s1, r⟩
      have hs1 : s1 = AVI_WriteFrame_state false cad s := by
        have hfst := AVI_WriteFrame_fst false cad s
        rw [hw] at hfst
        exact hfst
      have hinv := writeFrame_state_KeyframeInv cad s h
      rw [← hs1] at hinv
      cases r
      · exact hinv
      · exact store_KeyframeInv buf n s1 hinv
    · exact h
  · split
    · exact h
    · exact store_KeyframeInv buf n s h

theorem run_KeyframeInv (cad : Nat → Bool × Nat) :
    ∀ (events : List AviEvent) (s : AviState), KeyframeInv s →
      KeyframeInv (AVI_run false cad events s) := by
  intro events
  induction events with
  | nil => intro s h; exact h
  | cons ev rest ih =>
    intro s h
    cases ev with
    | addVideo e nb =>
      rw [AVI_run]
      exact ih _ (addVideo_KeyframeInv cad e nb s h)
    | addAudio b n =>
      rw [AVI_run]
      exact ih _ (addAudio_KeyframeInv cad b n s h)

theorem writeFrame_state_LenInv (uses_interframes : Bool) (cad : Nat → Bool × Nat)
    (s : AviState) (h : LenInv s) :
    LenInv (AVI_WriteFrame_state uses_interframes cad s) := by
  unfold LenInv at h ⊢
  rw [AVI_WriteFrame_state_frame_indexes, AVI_WriteFrame_state_frames_written]
  simp [h]

theorem addVideo_LenInv (uses_interframes : Bool) (cad : Nat → Bool × Nat)
    (encoded : Int) (newbuf : Nat → Nat) (s : AviState) (h : LenInv s) :
    LenInv (AVI_AddVideoFrame uses_interframes cad encoded newbuf s).1 := by
  unfold AVI_AddVideoFrame
  split
  · split
    · rcases hw : AVI_WriteFrame uses_interframes cad s with ⟨s1, r⟩
      have hs1 : s1 = AVI_WriteFrame_state uses_interframes cad s := by
        have hfst := AVI_WriteFrame_fst uses_interframes cad s
        rw [hw] at hfst
        exact hfst
      have hinv := writeFrame_state_LenInv uses_interframes cad s h
      rw [← hs1] at hinv
      cases r
      · exact hinv
      · exact hinv
    · exact h
  · split
    · exact h
    · exact h

theorem store_LenInv (buf : Nat → Nat) (n : Nat) (s : AviState)
    (h : LenInv s) : LenInv (AVI_AddAudioSamples_store buf n s).1 := by
  unfold AVI_AddAudioSamples_store
  split
  · exact h
  · exact h

theorem addAudio_LenInv (uses_interframes : Bool) (cad : Nat → Bool × Nat)
    (buf : Nat → Nat) (n : Nat) (s : AviState) (h : LenInv s) :
    LenInv (AVI_AddAudioSamples uses_interframes cad buf n s).1 := by
  unfold AVI_AddAudioSamples
  split
  · split
    · rcases hw : AVI_WriteFrame uses_interframes cad s with ⟨s1, r⟩
      have hs1 : s1 = AVI_WriteFrame_state uses_interframes cad s := by
        have hfst := AVI_WriteFrame_fst uses_interframes cad s
        rw [hw] at hfst
        exact hfst
      have hinv := writeFrame_state_LenInv uses_interframes cad s h
      rw [← hs1] at hinv
      cases r
      · exact hinv
      · exact store_LenInv buf n s1 hinv
    · exact h
  · split
    · exact h
    · exact store_LenInv buf n s h

theorem run_LenInv (uses_interframes : Bool) (cad : Nat → Bool × Nat) :
    ∀ (events : List AviEvent) (s : AviState), LenInv s →
      LenInv (AVI_run uses_interframes cad events s) := by
  intro events
  induction events with
  | nil => intro s h; exact h
  | cons ev rest ih =>
    intro s h
    cases ev with
    | addVideo e nb =>
      rw [AVI_run]
      exact ih _ (addVideo_LenInv uses_interframes cad e nb s h)
    | addAudio b n =>
      rw [AVI_run]
      exact ih _ (addAudio_LenInv uses_interframes cad b n s h)

theorem writeFrame_state_FirstKeyInv (uses_interframes : Bool)
    (cad : Nat → Bool × Nat) (s : AviState) (h : FirstKeyInv s) :
    FirstKeyInv (AVI_WriteFrame_state uses_interframes cad s) := by
  constructor
  · rw [AVI_WriteFrame_state_frame_indexes]
    intro habs
    exact absurd habs (by simp)
  · rw [AVI_WriteFrame_state_frame_indexes]
    intro e he
    cases hfi : s.frame_indexes with
    | nil =>
      rw [hfi] at he
      simp at he
      rw [← he, h.1 hfi]
      exact packIndex_keybit_of_true _ _
    | cons a t =>
      rw [hfi] at he
      simp at he
      rw [← he]
      apply h.2 a
      rw [hfi]
      rfl

theorem addVideo_FirstKeyInv (uses_interframes : Bool) (cad : Nat → Bool × Nat)
    (encoded : Int) (newbuf : Nat → Nat) (s : AviState) (h : FirstKeyInv s) :
    FirstKeyInv (AVI_AddVideoFrame uses_interframes cad encoded newbuf s).1 := by
  unfold AVI_AddVideoFrame
  split
  · next hscr =>
    split
    · rcases hw : AVI_WriteFrame uses_interframes cad s with ⟨s1, r⟩
      have hs1 : s1 = AVI_WriteFrame_state uses_interframes cad s := by
        have hfst := AVI_WriteFrame_fst uses_interframes cad s
        rw [hw] at hfst
        exact hfst
      have hinv := writeFrame_state_FirstKeyInv uses_interframes cad s h
      rw [← hs1] at hinv
      cases r
      · exact hinv
      · constructor
        · intro habs
          exact absurd (hinv.1 habs) (by
            rw [hs1, AVI_WriteFrame_state_frame_indexes] at habs
            simp at habs)
        · exact hinv.2
    · exact h
  · split
    · exact h
    · exact ⟨fun hh => h.1 hh, h.2⟩

theorem store_FirstKeyInv (buf : Nat → Nat) (n : Nat) (s : AviState)
    (h : FirstKeyInv s) : FirstKeyInv (AVI_AddAudioSamples_store buf n s).1 := by
  unfold AVI_AddAudioSamples_store
  split
  · exact h
  · exact ⟨fun hh => h.1 hh, h.2⟩

theorem addAudio_FirstKeyInv (uses_interframes : Bool) (cad : Nat → Bool × Nat)
    (buf : Nat → Nat) (n : Nat) (s : AviState) (h : FirstKeyInv s) :
    FirstKeyInv (AVI_AddAudioSamples uses_interframes cad buf n s).1 := by
  unfold AVI_AddAudioSamples
  split
  · split
    · rcases hw : AVI_WriteFrame uses_interframes cad s with ⟨s1, r⟩
      have hs1 : s1 = AVI_WriteFrame_state uses_interframes cad s := by
        have hfst := AVI_WriteFrame_fst uses_interframes cad s
        rw [hw] at hfst
        exact hfst
      have hinv := writeFrame_state_FirstKeyInv uses_interframes cad s h
      rw [← hs1] at hinv
      cases r
      · exact hinv
      · exact store_FirstKeyInv buf n s1 hinv
    · exact h
  · split
    · exact h
    · exact store_FirstKeyInv buf n s h

theorem run_FirstKeyInv (uses_interframes : Bool) (cad : Nat → Bool × Nat) :
    ∀ (events : List AviEvent) (s : AviState), FirstKeyInv s →
      FirstKeyInv (AVI_run uses_interframes cad events s) := by
  intro events
  induction events with
  | nil => intro s h; exact h
  | cons ev rest ih =>
    intro s h
    cases ev with
    | addVideo e nb =>
      rw [AVI_run]
      exact ih _ (addVideo_FirstKeyInv uses_interframes cad e nb s h)
    | addAudio b n =>
      rw [AVI_run]
      exact ih _ (addAudio_FirstKeyInv uses_interframes cad b n s h)

theorem drop_append_block (block rest : List Nat) (m j : Nat)
    (h : block.length = m) :
    (block ++ rest).drop (m + j) = rest.drop j := by
  rw [List.drop_append_eq_append_drop]
  rw [List.drop_eq_nil_of_le (by omega)]
  rw [List.nil_append, h]
  congr 1
  omega

theorem idxEntryBlock_length (e off : Nat) : (idxEntryBlock e off).length = 32 := by
  simp [idxEntryBlock, tag00dc, tag01wb, fputlBytes]

theorem idxEntryBlock_flag_slice (e off : Nat) (rest : List Nat) :
    ((idxEntryBlock e off ++ rest).drop 4).take 4
      = fputlBytes (indexKeyframeFlag e) := by
  simp [idxEntryBlock, tag00dc, tag01wb, fputlBytes]

theorem idxEntryBytes_flag (entries : List Nat) :
    ∀ (off k : Nat), k < entries.length →
      (∀ e ∈ entries, e &&& KEYFRAME_BITMASK ≠ 0) →
      ((idxEntryBytes entries off).drop (32 * k + 4)).take 4
        = fputlBytes 0x10 := by
  induction entries with
  | nil =>
    intro off k hk hall
    simp at hk
  | cons e rest ih =>
    intro off k hk hall
    cases k with
    | zero =>
      rw [idxEntryBytes]
      simp only [Nat.mul_zero, Nat.zero_add]
      rw [idxEntryBlock_flag_slice]
      unfold indexKeyframeFlag
      rw [if_pos (hall e (List.mem_cons_self e rest))]
    | succ k2 =>
      rw [idxEntryBytes]
      rw [show 32 * (k2 + 1) + 4 = 32 + (32 * k2 + 4) by ring]
      rw [drop_append_block _ _ 32 _ (idxEntryBlock_length e off)]
      exact ih _ k2 (by simp at hk; omega)
        (fun x hx => hall x (List.mem_cons_of_mem _ hx))

/-- C5: with a codec whose `uses_interframes` is false, the pending
keyframe flag is set whenever a frame is flushed, so every packed index
entry carries the keyframe bit and every `00dc` entry written by
`AVI_WriteIndex` carries flags 0x10; and for any codec, the first
recorded frame of a recording is a keyframe. -/
theorem interframes_off_all_keyframes (cad cad2 : Nat → Bool × Nat) (ui2 : Bool)
    (headerLen : Nat) (sound_enabled : Bool) (ss absz : Nat) (vbuf : Nat → Nat)
    (events events2 : List AviEvent) :
    (AVI_run false cad events
        (AVI_OpenFile headerLen sound_enabled ss absz vbuf)).current_is_keyframe
      = true ∧
    (∀ e ∈ (AVI_run false cad events
        (AVI_OpenFile headerLen sound_enabled ss absz vbuf)).frame_indexes,
      e &&& KEYFRAME_BITMASK ≠ 0) ∧
    (∀ k < (AVI_run false cad events
        (AVI_OpenFile headerLen sound_enabled ss absz vbuf)).frames_written,
      (((AVI_WriteIndex (AVI_run false cad events
          (AVI_OpenFile headerLen sound_enabled ss absz vbuf))).1.drop
            (8 + (32 * k + 4))).take 4)
        = fputlBytes 0x10) ∧
    (∀ e, (AVI_run ui2 cad2 events2
        (AVI_OpenFile headerLen sound_enabled ss absz vbuf)).frame_indexes.head?
          = some e →
      e &&& KEYFRAME_BITMASK ≠ 0) := by
  have hopen_kf : KeyframeInv (AVI_OpenFile headerLen sound_enabled ss absz vbuf) := by
    constructor
    · rfl
    · intro e he
      simp [AVI_OpenFile] at he
  have hopen_len : LenInv (AVI_OpenFile headerLen sound_enabled ss absz vbuf) := rfl
  have hopen_first : FirstKeyInv (AVI_OpenFile headerLen sound_enabled ss absz vbuf) := by
    constructor
    · intro _; rfl
    · intro e he
      simp [AVI_OpenFile] at he
  have hkf := run_KeyframeInv cad events _ hopen_kf
  have hlen := run_LenInv false cad events _ hopen_len
  have hfirst := run_FirstKeyInv ui2 cad2 events2 _ hopen_first
  refine ⟨hkf.1, hkf.2, ?_, hfirst.2⟩
  intro k hk
  unfold AVI_WriteIndex
  rw [if_neg (by omega)]
  dsimp only
  rw [drop_append_block (tagidx1 ++ fputlBytes ((AVI_run false cad events
      (AVI_OpenFile headerLen sound_enabled ss absz vbuf)).frames_written * 16 * 2))
    _ 8 _ (by simp [tagidx1, fputlBytes])]
  unfold LenInv at hlen
  rw [← hlen, List.take_length]
  exact idxEntryBytes_flag _ 4 k (by rw [hlen]; exact hk) hkf.2

/-- Witness for C5: one recorded frame (audio batch, video frame, audio
batch) in a fresh two-stream session. -/
def aviOneFrameEvents : List AviEvent :=
  [AviEvent.addAudio zerobuf 2, AviEvent.addVideo 3 zerobuf,
   AviEvent.addAudio zerobuf 2]

theorem interframes_off_all_keyframes_witness :
    (((AVI_WriteIndex (AVI_run false cad0 aviOneFrameEvents
        (AVI_OpenFile 100 true 1 1000 zerobuf))).1.drop
          (8 + (32 * 0 + 4))).take 4)
      = fputlBytes 0x10 :=
  ((interframes_off_all_keyframes cad0 cad0 false 100 true 1 1000 zerobuf
      aviOneFrameEvents []).2.2.1) 0 (by decide)

/-! ### C1: index offsets agree with physical chunk positions

A recorded frame is abstracted as a triple `(video_size, num_samples,
keyframe)`; `setPending` puts it into the pending sentinels exactly the
way a successful `AVI_AddVideoFrame` + `AVI_AddAudioSamples` pair does,
and `flushRun` flushes a list of such frames through `AVI_WriteFrame`. -/

/-- Install a pending frame: the codec returned `video_size` bytes, the
host delivered `num_samples` audio samples, and the current keyframe
flag is `kf`. -/
def setPending (f : Nat × Nat × Bool) (s : AviState) : AviState :=
  { s with current_screen_size := Int.ofNat f.1,
           current_audio_samples := Int.ofNat f.2.1,
           current_is_keyframe := f.2.2 }

/-- Flush a list of pending frames through `AVI_WriteFrame`. -/
def flushRun (uses_interframes : Bool) (cad : Nat → Bool × Nat) :
    List (Nat × Nat × Bool) → AviState → AviState
  | [], s => s
  | f :: rest, s =>
      flushRun uses_interframes cad rest
        (AVI_WriteFrame uses_interframes cad (setPending f s)).1

/-- On-disk length of one frame's chunk group (video plus audio chunk,
both padded), for sample size `ss`. -/
def frameGroupLen (ss : Nat) (f : Nat × Nat × Bool) : Nat :=
  paddedChunkLen f.1 + paddedChunkLen (f.2.1 * ss)

/-- The bytes of one frame's chunk group as `AVI_WriteFrame` appends
them in a two-stream session. -/
def frameGroupBytes (ss : Nat) (vbuf abuf : Nat → Nat)
    (f : Nat × Nat × Bool) : List Nat :=
  videoChunkBytes vbuf f.1 ++ audioChunkBytes abuf (f.2.1 * ss)

/-- The claimed offset of the `k`-th video chunk relative to the start
of the `movi` payload: 4 (for the `movi` tag) plus the padded lengths of
all earlier chunk groups. -/
def moviOffset (ss : Nat) (frames : List (Nat × Nat × Bool)) (k : Nat) : Nat :=
  4 + ((frames.take k).map (frameGroupLen ss)).sum

/-- The packed index entry recorded for one abstract frame. -/
def packFrame (ss : Nat) (f : Nat × Nat × Bool) : Nat :=
  packFrameIndex f.1 (f.2.1 * ss) f.2.2

theorem frameGroupBytes_length (ss : Nat) (vbuf abuf : Nat → Nat)
    (f : Nat × Nat × Bool) :
    (frameGroupBytes ss vbuf abuf f).length = frameGroupLen ss f := by
  simp [frameGroupBytes, frameGroupLen, videoChunkBytes_length,
    audioChunkBytes_length]

theorem setPending_pendingVideoSize (f : Nat × Nat × Bool) (s : AviState) :
    pendingVideoSize (setPending f s) = f.1 := by
  unfold pendingVideoSize setPending
  exact Int.toNat_ofNat f.1

theorem setPending_pendingAudioSize (f : Nat × Nat × Bool) (s : AviState)
    (h2 : s.num_streams = 2) :
    pendingAudioSize (setPending f s) = f.2.1 * s.sample_size := by
  unfold pendingAudioSize setPending
  dsimp only
  rw [if_pos h2]
  rfl

theorem setPending_frameChunks (f : Nat × Nat × Bool) (s : AviState)
    (h2 : s.num_streams = 2) :
    frameChunks (setPending f s)
      = frameGroupBytes s.sample_size s.video_buffer s.audio_buffer f := by
  unfold frameChunks frameGroupBytes
  rw [setPending_pendingVideoSize, setPending_pendingAudioSize f s h2]
  have hns : (setPending f s).num_streams = 2 := h2
  rw [if_pos hns]
  rfl

theorem flushStep_movi (uses_interframes : Bool) (cad : Nat → Bool × Nat)
    (f : Nat × Nat × Bool) (s : AviState) (h2 : s.num_streams = 2) :
    (AVI_WriteFrame uses_interframes cad (setPending f s)).1.movi
      = s.movi ++ frameGroupBytes s.sample_size s.video_buffer s.audio_buffer f := by
  rw [AVI_WriteFrame_fst, AVI_WriteFrame_state_movi,
    setPending_frameChunks f s h2]
  rfl

theorem flushStep_frame_indexes (uses_interframes : Bool) (cad : Nat → Bool × Nat)
    (f : Nat × Nat × Bool) (s : AviState) (h2 : s.num_streams = 2) :
    (AVI_WriteFrame uses_interframes cad (setPending f s)).1.frame_indexes
      = s.frame_indexes ++ [packFrame s.sample_size f] := by
  rw [AVI_WriteFrame_fst, AVI_WriteFrame_state_frame_indexes,
    setPending_pendingVideoSize, setPending_pendingAudioSize f s h2]
  rfl

theorem flushStep_frames_written (uses_interframes : Bool) (cad : Nat → Bool × Nat)
    (f : Nat × Nat × Bool) (s : AviState) :
    (AVI_WriteFrame uses_interframes cad (setPending f s)).1.frames_written
      = s.frames_written + 1 := by
  rw [AVI_WriteFrame_fst, AVI_WriteFrame_state_frames_written]
  rfl

theorem flushStep_session_fields (uses_interframes : Bool) (cad : Nat → Bool × Nat)
    (f : Nat × Nat × Bool) (s : AviState) :
    (AVI_WriteFrame uses_interframes cad (setPending f s)).1.num_streams
        = s.num_streams ∧
    (AVI_WriteFrame uses_interframes cad (setPending f s)).1.sample_size
        = s.sample_size ∧
    (AVI_WriteFrame uses_interframes cad (setPending f s)).1.video_buffer
        = s.video_buffer ∧
    (AVI_WriteFrame uses_interframes cad (setPending f s)).1.audio_buffer
        = s.audio_buffer := by
  rw [AVI_WriteFrame_fst]
  exact ⟨rfl, rfl, rfl, rfl⟩

theorem flushRun_spec (uses_interframes : Bool) (cad : Nat → Bool × Nat) :
    ∀ (frames : List (Nat × Nat × Bool)) (s : AviState), s.num_streams = 2 →
      (flushRun uses_interframes cad frames s).movi
        = s.movi ++ (frames.map
            (frameGroupBytes s.sample_size s.video_buffer s.audio_buffer)).flatten ∧
      (flushRun uses_interframes cad frames s).frame_indexes
        = s.frame_indexes ++ frames.map (packFrame s.sample_size) ∧
      (flushRun uses_interframes cad frames s).frames_written
        = s.frames_written + frames.length := by
  intro frames
  induction frames with
  | nil =>
    intro s h2
    refine ⟨by simp [flushRun], by simp [flushRun], by simp [flushRun]⟩
  | cons f rest ih =>
    intro s h2
    have hns := (flushStep_session_fields uses_interframes cad f s).1
    have hss := (flushStep_session_fields uses_interframes cad f s).2.1
    have hvb := (flushStep_session_fields uses_interframes cad f s).2.2.1
    have hab := (flushStep_session_fields uses_interframes cad f s).2.2.2
    have h2s : (AVI_WriteFrame uses_interframes cad (setPending f s)).1.num_streams
        = 2 := by rw [hns, h2]
    obtain ⟨ihm, ihx, ihw⟩ := ih (AVI_WriteFrame uses_interframes cad (setPending f s)).1 h2s
    rw [flushRun]
    refine ⟨?_, ?_, ?_⟩
    · rw [ihm, hss, hvb, hab, flushStep_movi uses_interframes cad f s h2]
      simp [List.append_assoc]
    · rw [ihx, hss, flushStep_frame_indexes uses_interframes cad f s h2]
      simp [List.append_assoc]
    · rw [ihw, flushStep_frames_written]
      simp
      omega

/-- On-disk length of one frame's chunk group as reconstructed by the
`AVI_WriteIndex` loop from a packed entry. -/
def idxGroupLen (e : Nat) : Nat :=
  paddedChunkLen (indexVideoSize e) + paddedChunkLen (indexAudioSize e)

theorem idxNextOffset_eq (e off : Nat) :
    idxNextOffset e off = off + idxGroupLen e := by
  unfold idxNextOffset idxGroupLen paddedChunkLen
  omega

theorem idxEntryBlock_voffset_slice (e off : Nat) (rest : List Nat) :
    ((idxEntryBlock e off ++ rest).drop 8).take 4 = fputlBytes off := by
  simp [idxEntryBlock, tag00dc, tag01wb, fputlBytes]

theorem idxEntryBlock_aoffset_slice (e off : Nat) (rest : List Nat) :
    ((idxEntryBlock e off ++ rest).drop 24).take 4
      = fputlBytes (off + indexVideoSize e + 8 + indexVideoSize e % 2) := by
  simp [idxEntryBlock, tag00dc, tag01wb, fputlBytes]

theorem idxEntryBytes_offsets (entries : List Nat) :
    ∀ (off k : Nat) (hk : k < entries.length),
      (((idxEntryBytes entries off).drop (32 * k + 8)).take 4
        = fputlBytes (off + ((entries.take k).map idxGroupLen).sum)) ∧
      (((idxEntryBytes entries off).drop (32 * k + 24)).take 4
        = fputlBytes (off + ((entries.take k).map idxGroupLen).sum
            + paddedChunkLen (indexVideoSize (entries.get ⟨k, hk⟩)))) := by
  induction entries with
  | nil =>
    intro off k hk
    simp at hk
  | cons e rest ih =>
    intro off k hk
    cases k with
    | zero =>
      rw [idxEntryBytes]
      constructor
      · simp only [Nat.mul_zero, Nat.zero_add]
        rw [idxEntryBlock_voffset_slice]
        simp
      · simp only [Nat.mul_zero, Nat.zero_add]
        rw [idxEntryBlock_aoffset_slice]
        congr 1
        simp [paddedChunkLen]
        omega
    | succ k2 =>
      rw [idxEntryBytes]
      have hk2 : k2 < rest.length := by simp at hk; omega
      obtain ⟨ih1, ih2⟩ := ih (idxNextOffset e off) k2 hk2
      constructor
      · rw [show 32 * (k2 + 1) + 8 = 32 + (32 * k2 + 8) by ring]
        rw [drop_append_block _ _ 32 _ (idxEntryBlock_length e off)]
        rw [ih1]
        congr 1
        rw [idxNextOffset_eq]
        simp [List.take_succ_cons]
        omega
      · rw [show 32 * (k2 + 1) + 24 = 32 + (32 * k2 + 24) by ring]
        rw [drop_append_block _ _ 32 _ (idxEntryBlock_length e off)]
        rw [ih2]
        congr 1
        rw [idxNextOffset_eq]
        simp [List.take_succ_cons]
        omega

theorem flatten_group_slices (ss : Nat) (vb ab : Nat → Nat) :
    ∀ (frames : List (Nat × Nat × Bool)) (k : Nat) (hk : k < frames.length),
      ((((frames.map (frameGroupBytes ss vb ab)).flatten).drop
          (((frames.take k).map (frameGroupLen ss)).sum)).take 4 = tag00dc) ∧
      ((((frames.map (frameGroupBytes ss vb ab)).flatten).drop
          (((frames.take k).map (frameGroupLen ss)).sum
            + paddedChunkLen (frames.get ⟨k, hk⟩).1)).take 4 = tag01wb) := by
  intro frames
  induction frames with
  | nil =>
    intro k hk
    simp at hk
  | cons f rest ih =>
    intro k hk
    cases k with
    | zero =>
      constructor
      · simp only [List.take_zero, List.map_nil, List.sum_nil, List.drop_zero,
          List.map_cons, List.flatten_cons]
        simp [frameGroupBytes, videoChunkBytes, tag00dc]
      · simp only [List.take_zero, List.map_nil, List.sum_nil, Nat.zero_add,
          List.map_cons, List.flatten_cons]
        rw [show ((f :: rest).get ⟨0, hk⟩) = f from rfl]
        unfold frameGroupBytes
        rw [List.append_assoc]
        rw [List.drop_left' (by rw [videoChunkBytes_length])]
        simp [audioChunkBytes, tag01wb]
    | succ k2 =>
      have hk2 : k2 < rest.length := by simp at hk; omega
      obtain ⟨ih1, ih2⟩ := ih k2 hk2
      constructor
      · simp only [List.take_succ_cons, List.map_cons, List.sum_cons,
          List.flatten_cons]
        rw [drop_append_block _ _ (frameGroupLen ss f) _
          (frameGroupBytes_length ss vb ab f)]
        exact ih1
      · simp only [List.take_succ_cons, List.map_cons, List.sum_cons,
          List.flatten_cons]
        rw [Nat.add_assoc]
        rw [drop_append_block _ _ (frameGroupLen ss f) _
          (frameGroupBytes_length ss vb ab f)]
        exact ih2

theorem idxGroupLen_pack (ss : Nat) (f : Nat × Nat × Bool)
    (h1 : f.1 ≤ 262143) (h2 : f.2.1 * ss ≤ 8191) :
    idxGroupLen (packFrame ss f) = frameGroupLen ss f := by
  unfold idxGroupLen frameGroupLen packFrame
  rw [packIndex_video _ _ _ h1 h2, packIndex_audio _ _ _ h1 h2]

/-- Two-stream case of the index/offset agreement: for a session with
audio present (`sound_enabled = true`, so `num_streams = 2`) and flushed
frames within the per-frame size limits, the offset field written by
`AVI_WriteIndex` for the `k`-th video entry equals 4 plus the sum of the
padded on-disk lengths of all earlier chunk groups, the `k`-th audio
entry's offset equals the video offset plus the video chunk's padded
length, and these offsets are exactly the positions, relative to the
start of the `movi` payload, of the `00dc` and `01wb` tags that
`AVI_WriteFrame` wrote for that frame.  (The video-only case fails on
the code: see the C1 theorem below.) -/
theorem avi_index_offsets_agree (uses_interframes : Bool) (cad : Nat → Bool × Nat)
    (headerLen ss absz : Nat) (vbuf : Nat → Nat)
    (frames : List (Nat × Nat × Bool))
    (hb : ∀ f ∈ frames, f.1 ≤ 262143 ∧ f.2.1 * ss ≤ 8191) :
    ∀ (k : Nat) (hk : k < frames.length),
      (((AVI_WriteIndex (flushRun uses_interframes cad frames
            (AVI_OpenFile headerLen true ss absz vbuf))).1.drop
          (8 + (32 * k + 8))).take 4
        = fputlBytes (moviOffset ss frames k)) ∧
      (((AVI_WriteIndex (flushRun uses_interframes cad frames
            (AVI_OpenFile headerLen true ss absz vbuf))).1.drop
          (8 + (32 * k + 24))).take 4
        = fputlBytes (moviOffset ss frames k
            + paddedChunkLen (frames.get ⟨k, hk⟩).1)) ∧
      (((flushRun uses_interframes cad frames
            (AVI_OpenFile headerLen true ss absz vbuf)).movi.drop
          (moviOffset ss frames k)).take 4 = tag00dc) ∧
      (((flushRun uses_interframes cad frames
            (AVI_OpenFile headerLen true ss absz vbuf)).movi.drop
          (moviOffset ss frames k + paddedChunkLen (frames.get ⟨k, hk⟩).1)).take 4
        = tag01wb) := by
  intro k hk
  set s0 := AVI_OpenFile headerLen true ss absz vbuf with hs0
  have h2 : s0.num_streams = 2 := rfl
  obtain ⟨hmovi, hidx, hfw⟩ := flushRun_spec uses_interframes cad frames s0 h2
  have hssr : s0.sample_size = ss := rfl
  have hm0 : s0.movi = tagmovi := rfl
  have hfw0 : s0.frames_written = 0 := rfl
  have hfi0 : s0.frame_indexes = [] := rfl
  rw [hssr] at hmovi hidx
  rw [hm0] at hmovi
  rw [hfw0] at hfw
  rw [hfi0] at hidx
  simp only [List.nil_append, Nat.zero_add] at hidx hfw
  have hk2 : k < (frames.map (packFrame ss)).length := by
    rw [List.length_map]
    exact hk
  obtain ⟨ho1, ho2⟩ := idxEntryBytes_offsets (frames.map (packFrame ss)) 4 k hk2
  have hsum : (((frames.map (packFrame ss)).take k).map idxGroupLen).sum
      = ((frames.take k).map (frameGroupLen ss)).sum := by
    rw [← List.map_take, List.map_map]
    congr 1
    apply List.map_congr_left
    intro f hf
    have hfm := List.take_subset k frames hf
    exact idxGroupLen_pack ss f (hb f hfm).1 (hb f hfm).2
  have hget : (frames.map (packFrame ss)).get ⟨k, hk2⟩
      = packFrame ss (frames.get ⟨k, hk⟩) := by
    simp [List.get_eq_getElem, List.getElem_map]
  have hgetmem : frames.get ⟨k, hk⟩ ∈ frames := List.get_mem frames k hk
  have hvs : indexVideoSize ((frames.map (packFrame ss)).get ⟨k, hk2⟩)
      = (frames.get ⟨k, hk⟩).1 := by
    rw [hget]
    unfold packFrame
    exact packIndex_video _ _ _ (hb _ hgetmem).1 (hb _ hgetmem).2
  obtain ⟨hp1, hp2⟩ := flatten_group_slices ss s0.video_buffer s0.audio_buffer
    frames k hk
  have htake : (flushRun uses_interframes cad frames s0).frame_indexes.take
      (flushRun uses_interframes cad frames s0).frames_written
        = frames.map (packFrame ss) := by
    rw [hfw, hidx]
    exact List.take_of_length_le (by simp)
  refine ⟨?_, ?_, ?_, ?_⟩
  · unfold AVI_WriteIndex
    rw [if_neg (by rw [hfw]; omega)]
    dsimp only
    rw [htake, hfw]
    rw [drop_append_block (tagidx1 ++ fputlBytes (frames.length * 16 * 2)) _ 8 _
      (by simp [tagidx1, fputlBytes])]
    rw [ho1]
    congr 1
    unfold moviOffset
    omega
  · unfold AVI_WriteIndex
    rw [if_neg (by rw [hfw]; omega)]
    dsimp only
    rw [htake, hfw]
    rw [drop_append_block (tagidx1 ++ fputlBytes (frames.length * 16 * 2)) _ 8 _
      (by simp [tagidx1, fputlBytes])]
    rw [ho2, hvs]
    congr 1
    unfold moviOffset
    omega
  · rw [hmovi]
    unfold moviOffset
    rw [drop_append_block tagmovi _ 4 _ (by rfl)]
    exact hp1
  · rw [hmovi]
    unfold moviOffset
    rw [Nat.add_assoc]
    rw [drop_append_block tagmovi _ 4 _ (by rfl)]
    exact hp2

/-- Instance of `avi_index_offsets_agree`: two frames, sizes (3 video,
2 audio samples) and (4 video, 1 audio sample), sample size 1; checked
at `k = 1`. -/
theorem avi_index_offsets_agree_witness :
    (((AVI_WriteIndex (flushRun false cad0 [(3, 2, true), (4, 1, false)]
          (AVI_OpenFile 100 true 1 1000 zerobuf))).1.drop
        (8 + (32 * 1 + 8))).take 4
      = fputlBytes (moviOffset 1 [(3, 2, true), (4, 1, false)] 1)) ∧
    (((AVI_WriteIndex (flushRun false cad0 [(3, 2, true), (4, 1, false)]
          (AVI_OpenFile 100 true 1 1000 zerobuf))).1.drop
        (8 + (32 * 1 + 24))).take 4
      = fputlBytes (moviOffset 1 [(3, 2, true), (4, 1, false)] 1
          + paddedChunkLen (([(3, 2, true), (4, 1, false)]
              : List (Nat × Nat × Bool)).get ⟨1, by decide⟩).1)) ∧
    (((flushRun false cad0 [(3, 2, true), (4, 1, false)]
          (AVI_OpenFile 100 true 1 1000 zerobuf)).movi.drop
        (moviOffset 1 [(3, 2, true), (4, 1, false)] 1)).take 4 = tag00dc) ∧
    (((flushRun false cad0 [(3, 2, true), (4, 1, false)]
          (AVI_OpenFile 100 true 1 1000 zerobuf)).movi.drop
        (moviOffset 1 [(3, 2, true), (4, 1, false)] 1
          + paddedChunkLen (([(3, 2, true), (4, 1, false)]
              : List (Nat × Nat × Bool)).get ⟨1, by decide⟩).1)).take 4
      = tag01wb) :=
  avi_index_offsets_agree false cad0 100 1 1000 zerobuf
    [(3, 2, true), (4, 1, false)] (by decide) 1 (by decide)

/-- A video-only session of the `SOUND` build: `Sound_enabled` is off at
open time, so `num_streams = 1` and the sample size and audio buffer are
zero; two video frames of sizes 3 and 4 are flushed, with no audio. -/
def aviVideoOnlyRun : AviState :=
  flushRun false cad0 [(3, 0, true), (4, 0, false)]
    (AVI_OpenFile 100 false 0 0 zerobuf)

/-- C1: the claim fails on the code for video-only sessions.
`AVI_WriteFrame` (line 1128) writes an audio chunk only when
`num_streams = 2`, but the audio-entry write in `AVI_WriteIndex` (lines
1316-1323) is guarded only by `#ifdef SOUND`, not by `num_streams`, so a
video-only session still gets an `01wb` index entry per frame and the
offset accumulator still advances by that phantom chunk's 8 header
bytes.  Concretely, after flushing video frames of sizes 3 and 4 with no
audio: the session has one stream; the offset field of the second video
index entry is 24; it therefore differs from the claimed sum 4 + (3 + 8
+ 3 % 2) = 16 (no audio term, as no audio is present); the second `00dc`
tag physically sits at `movi` offset 16, the claimed position; and the
bytes at `movi` offset 24 are not a `00dc` tag (the whole payload is
only 28 bytes).  The header and frame writers do check `num_streams` at
run time, so the index is wrong by 8 bytes per preceding frame from the
second entry on: the claim states the intended behaviour and the code
deviates from it. -/
theorem videoonly_index_offset_mismatch :
    aviVideoOnlyRun.num_streams = 1 ∧
    (((AVI_WriteIndex aviVideoOnlyRun).1.drop (8 + (32 * 1 + 8))).take 4
      = fputlBytes 24) ∧
    (((AVI_WriteIndex aviVideoOnlyRun).1.drop (8 + (32 * 1 + 8))).take 4
      ≠ fputlBytes (4 + (3 + 8 + 3 % 2))) ∧
    ((aviVideoOnlyRun.movi.drop (4 + (3 + 8 + 3 % 2))).take 4 = tag00dc) ∧
    ((aviVideoOnlyRun.movi.drop 24).take 4 ≠ tag00dc) ∧
    aviVideoOnlyRun.movi.length = 28 := by
  refine ⟨by decide, by decide, by decide, by decide, by decide, by decide⟩

/-- Witness for C10: a freshly opened session closed immediately. -/
theorem close_zero_frames_fails_witness :
    (AVI_CloseFile false cad0 aviFresh).result = false ∧
    (AVI_CloseFile false cad0 aviFresh).idxBytes = [] ∧
    (AVI_CloseFile false cad0 aviFresh).wroteHeader = false ∧
    (AVI_CloseFile false cad0 aviFresh).state.size_riff = aviFresh.size_riff ∧
    (AVI_CloseFile false cad0 aviFresh).flushedFinal = false ∧
    (AVI_CloseFile false cad0 aviFresh).calledEnd = true ∧
    (AVI_CloseFile false cad0 aviFresh).freedVideoBuffer = true ∧
    (AVI_CloseFile false cad0 aviFresh).freedAudioBuffer
      = decide (0 < aviFresh.audio_buffer_size) ∧
    (AVI_CloseFile false cad0 aviFresh).freedFrameIndexes = true ∧
    (AVI_CloseFile false cad0 aviFresh).closedFile = true :=
  close_zero_frames_fails false cad0 aviFresh (by decide) (by decide)

end FileExport
